import Mathlib

/-!
# AsciiPlot point list (`asciip_lists.c`): heap model and verification

The C sources `src/asciip_lists.c` and `include/asciip_lists.h` are embedded
as Lean functions over an explicit memory.

* A C pointer is a `Ptr`: `NULL`, the address of an allocated object, or an
  indeterminate value (storage that was never written, e.g. the `next` field
  of a freshly `malloc`ed node, or an uninitialised local).
* Nodes and points live in two heaps (`Mem.nodes`, `Mem.points`), addressed by
  their index; `malloc` appends a cell, `free` turns the cell into `none`.
* `malloc` may fail: `Mem.avail` is the number of allocations that will still
  succeed.
* `printf` appends a line to `Mem.out`.
* An `Asciip_List` structure and the optional `Asciip_Error` tracker are passed
  by value and handed back updated (`none` is the `NULL` pointer).
* Undefined behaviour (dereferencing `NULL`, an indeterminate or a dangling
  pointer, branching on an indeterminate pointer) is a `Fault`.
* `uint16_t` arithmetic is arithmetic on `Nat` modulo `2 ^ 16`; comparisons
  that C performs after integer promotion to `int` (32 bit) are made in `Int`.
* The `double` coordinates are only stored and compared with `<`, never
  computed with. A `double` is a `Dbl`: NaN, one of the two infinities, or a
  finite value (a rational; the two zeros compare equal and are one value).
  Comparisons follow IEEE 754: `<` and `<=` are false as soon as one side is NaN.
-/

namespace AsciiPlot

/-! ## Data model -/

/-- C pointer value. -/
inductive Ptr where
  | null : Ptr
  | addr (a : Nat) : Ptr
  | wild : Ptr
  deriving DecidableEq, Repr

/-- Value of a C `double`: NaN, minus infinity, a finite value, plus infinity. -/
inductive Dbl where
  | nan : Dbl
  | ninf : Dbl
  | fin (v : ℚ) : Dbl
  | pinf : Dbl
  deriving DecidableEq

/-- The C comparison `a < b` on `double`: false as soon as one side is NaN. -/
def Dbl.lt : Dbl → Dbl → Bool
  | .nan, _ => false
  | _, .nan => false
  | .ninf, .ninf => false
  | .ninf, _ => true
  | .fin _, .ninf => false
  | .fin a, .fin b => decide (a < b)
  | .fin _, .pinf => true
  | .pinf, _ => false

/-- The C comparison `a <= b` on `double`: false as soon as one side is NaN. -/
def Dbl.le : Dbl → Dbl → Bool
  | .nan, _ => false
  | _, .nan => false
  | .ninf, _ => true
  | .fin _, .ninf => false
  | .fin a, .fin b => decide (a ≤ b)
  | .fin _, .pinf => true
  | .pinf, .pinf => true
  | .pinf, _ => false

instance Dbl.instLT : LT Dbl := ⟨fun a b => Dbl.lt a b = true⟩

instance Dbl.instLE : LE Dbl := ⟨fun a b => Dbl.le a b = true⟩

instance Dbl.instDecidableLt (a b : Dbl) : Decidable (a < b) :=
  inferInstanceAs (Decidable (Dbl.lt a b = true))

instance Dbl.instDecidableLe (a b : Dbl) : Decidable (a ≤ b) :=
  inferInstanceAs (Decidable (Dbl.le a b = true))

/-- A numeral denotes the finite `double` of that value. -/
instance Dbl.instOfNat (n : Nat) : OfNat Dbl n := ⟨.fin n⟩

/-- Mirror of `Asciip_Point`: `x` is the parameter value, `y` is `f(x)`. -/
structure Asciip_Point where
  x : Dbl
  y : Dbl
  deriving DecidableEq

/-- Mirror of `Asciip_Node`: `data` points to a point, `next` to the next node. -/
structure Asciip_Node where
  data : Ptr
  next : Ptr
  deriving DecidableEq, Repr

/-- Mirror of `Asciip_List`: `size` is a `uint16_t`. -/
structure Asciip_List where
  size : Nat
  head : Ptr
  tail : Ptr
  deriving DecidableEq, Repr

/-- Mirror of `Asciip_Error`: `message` is the `char[MAX_ERROR_MESSAGE_LEN]` buffer. -/
structure Asciip_Error where
  code : Nat
  message : List Char
  deriving DecidableEq, Repr

/-- Ways in which an execution leaves defined behaviour (or the model runs out of fuel). -/
inductive Fault where
  | null_deref : Fault
  | wild_use : Fault
  | dangling : Fault
  | out_of_fuel : Fault
  deriving DecidableEq, Repr

/-- The memory and output stream. -/
structure Mem where
  nodes : List (Option Asciip_Node)
  points : List (Option Asciip_Point)
  avail : Nat
  out : List String
  deriving DecidableEq

def MAX_ERROR_MESSAGE_LEN : Nat := 50

def ASCIIP_ERR_NULL_PTR : Nat := 0x0
def ASCIIP_ERR_MEM : Nat := 0x1
def ASCIIP_ERR_INDEX : Nat := 0x2
def ASCIIP_ERR_MAX_NUM : Nat := 0x3

/-! ## Memory primitives -/

/-- Content of the node cell at address `a`, `none` when not allocated. -/
def Mem.node (m : Mem) (a : Nat) : Option Asciip_Node := m.nodes.getD a none

/-- Content of the point cell at address `a`, `none` when not allocated. -/
def Mem.point (m : Mem) (a : Nat) : Option Asciip_Point := m.points.getD a none

/-- Store to the node cell at address `a`. -/
def Mem.setNode (m : Mem) (a : Nat) (n : Asciip_Node) : Mem :=
  { m with nodes := m.nodes.set a (some n) }

/-- Read through a node pointer (`p->...`). -/
def rdNode (m : Mem) (p : Ptr) : Except Fault (Nat × Asciip_Node) :=
  match p with
  | .null => .error .null_deref
  | .wild => .error .wild_use
  | .addr a =>
    match m.node a with
    | none => .error .dangling
    | some n => .ok (a, n)

/-- Read through a point pointer. -/
def rdPoint (m : Mem) (p : Ptr) : Except Fault Asciip_Point :=
  match p with
  | .null => .error .null_deref
  | .wild => .error .wild_use
  | .addr a =>
    match m.point a with
    | none => .error .dangling
    | some v => .ok v

/-- The test `p == NULL`; the outcome for an indeterminate pointer is not defined. -/
def isNull (p : Ptr) : Except Fault Bool :=
  match p with
  | .null => .ok true
  | .addr _ => .ok false
  | .wild => .error .wild_use

/-- Model of `malloc(sizeof(Asciip_List))`: only consumes an allocation. -/
def malloc_list (m : Mem) : Option Mem :=
  if m.avail = 0 then none else some { m with avail := m.avail - 1 }

/-- Model of `malloc(sizeof(Asciip_Node))`: a fresh cell whose fields are indeterminate. -/
def malloc_node (m : Mem) : Option (Nat × Mem) :=
  if m.avail = 0 then none
  else some (m.nodes.length,
    { m with nodes := m.nodes ++ [some ⟨.wild, .wild⟩], avail := m.avail - 1 })

/-- Model of `malloc(sizeof(Asciip_Point))`: a fresh cell (fields written by the caller). -/
def malloc_point (m : Mem) (v : Asciip_Point) : Option (Nat × Mem) :=
  if m.avail = 0 then none
  else some (m.points.length,
    { m with points := m.points ++ [some v], avail := m.avail - 1 })

/-- Model of `free` on a node pointer known to be valid. -/
def free_node (m : Mem) (a : Nat) : Mem :=
  { m with nodes := m.nodes.set a none }

/-- Model of `free` on a point address. -/
def free_point (m : Mem) (a : Nat) : Mem :=
  { m with points := m.points.set a none }

/-! ## `report_error` -/

/-- Lower-case hexadecimal rendering, as `printf("%x")`. -/
def hex (n : Nat) : String := String.mk (Nat.toDigits 16 n)

/-- The line printed by `printf("[ERROR] Code: 0x%x, Message: %s\n", ...)`. -/
def diagnostic (error_code : Nat) (error_message : String) : String :=
  "[ERROR] Code: 0x" ++ hex error_code ++ ", Message: " ++ error_message ++ "\n"

/-- Model of `strncpy(dst, src, n)` into a buffer of `n` characters: the first `n`
characters of `src`, padded with NUL characters up to `n`. -/
def strncpy (src : List Char) (n : Nat) : List Char :=
  src.take n ++ List.replicate (n - src.length) (Char.ofNat 0)

/-- Source: `report_error`. Always prints; fills the tracker when one is given. -/
def report_error (error : Option Asciip_Error) (error_code : Nat) (error_message : String)
    (m : Mem) : Option Asciip_Error × Mem :=
  let code := error_code % 256
  let m1 := { m with out := m.out ++ [diagnostic code error_message] }
  match error with
  | none => (none, m1)
  | some _ =>
    (some { code := code,
            message := strncpy error_message.data MAX_ERROR_MESSAGE_LEN }, m1)

/-! ## List construction -/

/-- Source: `asciip_list_init`. `result` is the slot `Asciip_List **result`
(`none` when the slot pointer is `NULL`, otherwise its current content).
Returns the returned list pointer, the slot and the tracker. -/
def asciip_list_init (m : Mem) (init_point : Ptr) (result : Option (Option Asciip_List))
    (error : Option Asciip_Error) :
    Except Fault (Option Asciip_List × Option (Option Asciip_List) × Option Asciip_Error × Mem) :=
  match result with
  | none =>
    let r := report_error error ASCIIP_ERR_NULL_PTR
      "asciip_list_init: Result pointer was NULL, cannot store result.\n" m
    .ok (none, none, r.1, r.2)
  | some slot =>
    match malloc_list m with
    | none =>
      let r := report_error error ASCIIP_ERR_MEM
        "asciip_list_init: Could not malloc point list pointer." m
      .ok (none, some slot, r.1, r.2)
    | some m1 =>
      let point_list : Asciip_List := { size := 0, head := .null, tail := .null }
      match isNull init_point with
      | .error f => .error f
      | .ok true => .ok (some point_list, some (some point_list), error, m1)
      | .ok false =>
        let point_list := { point_list with size := (point_list.size + 1) % 65536 }
        match malloc_node m1 with
        | none =>
          let r := report_error error ASCIIP_ERR_MEM
            "asciip_list_init: Could not allocate memory to new node.\n" m1
          .ok (none, some slot, r.1, r.2)
        | some (nodep, m2) =>
          let m3 := m2.setNode nodep { data := init_point, next := .wild }
          let point_list := { point_list with head := .addr nodep, tail := .addr nodep }
          .ok (some point_list, some (some point_list), error, m3)

/-! ## Indexed retrieval -/

/-- The loop `for (ind = 1; ind < index; ind++)` of `asciip_list_get_node`; the first
argument is the number of iterations still to run. Returns `none` when the body
leaves the function through `return NULL`. -/
def asciip_list_get_node_loop (error : Option Asciip_Error) (m : Mem) :
    Nat → Ptr → Except Fault (Option Ptr × Option Asciip_Error × Mem)
  | 0, nodep => .ok (some nodep, error, m)
  | n + 1, nodep =>
    match isNull nodep with
    | .error f => .error f
    | .ok true =>
      let r := report_error error ASCIIP_ERR_NULL_PTR
        "asciip_list_get_node: Found end of list unexpectedly.\n" m
      .ok (none, r.1, r.2)
    | .ok false =>
      match rdNode m nodep with
      | .error f => .error f
      | .ok (_, nd) => asciip_list_get_node_loop error m n nd.next

/-- Source: `asciip_list_get_node`. The loop counter runs from `1` up to `index`
exclusive, that is `index - 1` times. The returned pointer is also what is stored
through `result`. -/
def asciip_list_get_node (m : Mem) (nodep : Ptr) (index : Nat) (error : Option Asciip_Error) :
    Except Fault (Ptr × Option Asciip_Error × Mem) :=
  match isNull nodep with
  | .error f => .error f
  | .ok true =>
    let r := report_error error ASCIIP_ERR_NULL_PTR
      "asciip_list_get_node: list was NULL, cannot operate on NULL list." m
    .ok (.null, r.1, r.2)
  | .ok false =>
    match asciip_list_get_node_loop error m (index - 1) nodep with
    | .error f => .error f
    | .ok (none, e, m1) => .ok (.null, e, m1)
    | .ok (some p, e, m1) => .ok (p, e, m1)

/-- Source: `asciip_list_get`. The parameter `_result` is a pointer passed by value:
assigning it has no effect for the caller. -/
def asciip_list_get (m : Mem) (list : Option Asciip_List) (index : Nat) (_result : Ptr)
    (error : Option Asciip_Error) : Except Fault (Ptr × Option Asciip_Error × Mem) :=
  match list with
  | none =>
    let r := report_error error ASCIIP_ERR_NULL_PTR
      "asciip_list_get: List was NULL, cannot find index.\n" m
    .ok (.null, r.1, r.2)
  | some l =>
    if (index : Int) > (l.size : Int) - 1 then
      let r := report_error error ASCIIP_ERR_INDEX
        "asciip_list_get: Index was not in the bounds of the list." m
      .ok (.null, r.1, r.2)
    else
      match asciip_list_get_node m l.head index error with
      | .error f => .error f
      | .ok (nodep, e, m1) =>
        match isNull nodep with
        | .error f => .error f
        | .ok true => .ok (.null, e, m1)
        | .ok false =>
          match rdNode m1 nodep with
          | .error f => .error f
          | .ok (_, nd) => .ok (nd.data, e, m1)

/-! ## Insertion and removal -/

/-- Source: `asciip_list_add`. Returns the status, the list structure and the tracker. -/
def asciip_list_add (m : Mem) (list : Option Asciip_List) (point : Ptr)
    (error : Option Asciip_Error) :
    Except Fault (Int × Option Asciip_List × Option Asciip_Error × Mem) :=
  match list with
  | none =>
    let r := report_error error ASCIIP_ERR_NULL_PTR
      "asciip_list_add: One of the parameters were NULL." m
    .ok (-1, none, r.1, r.2)
  | some l =>
    match isNull point with
    | .error f => .error f
    | .ok true =>
      let r := report_error error ASCIIP_ERR_NULL_PTR
        "asciip_list_add: One of the parameters were NULL." m
      .ok (-1, some l, r.1, r.2)
    | .ok false =>
      match malloc_node m with
      | none =>
        let r := report_error error ASCIIP_ERR_MEM
          "asciip_list_add: Could not create new node for list." m
        .ok (-1, some l, r.1, r.2)
      | some (nodep, m1) =>
        -- nodep->data = point;
        let m2 := m1.setNode nodep { data := point, next := .wild }
        -- list->size++;
        let l1 := { l with size := (l.size + 1) % 65536 }
        -- list->tail->next = nodep;
        match rdNode m2 l1.tail with
        | .error f => .error f
        | .ok (t, tn) =>
          let m3 := m2.setNode t { tn with next := .addr nodep }
          -- list->tail = nodep;
          let l2 := { l1 with tail := .addr nodep }
          .ok (0, some l2, error, m3)

/-- The loop `for (ind = 1; ind < index; ind++)` of `asciip_list_remove` on the pair
`(prev_nodep, nodep)`; the first argument is the number of iterations still to run. -/
def asciip_list_remove_loop (m : Mem) : Nat → Ptr → Ptr → Except Fault (Ptr × Ptr)
  | 0, prev_nodep, nodep => .ok (prev_nodep, nodep)
  | n + 1, _, nodep =>
    -- prev_nodep = nodep; nodep = prev_nodep->next;
    match rdNode m nodep with
    | .error f => .error f
    | .ok (_, nd) => asciip_list_remove_loop m n nodep nd.next

/-- Source: `asciip_list_remove`. Returns the removed point, the list structure and
the tracker. The local `prev_nodep` starts indeterminate. -/
def asciip_list_remove (m : Mem) (list : Option Asciip_List) (index : Nat)
    (error : Option Asciip_Error) :
    Except Fault (Ptr × Option Asciip_List × Option Asciip_Error × Mem) :=
  match list with
  | none =>
    let r := report_error error ASCIIP_ERR_NULL_PTR
      "asciip_list_remove: list was NULL, cannot operate on NULL list." m
    .ok (.null, none, r.1, r.2)
  | some l =>
    if (index : Int) > (l.size : Int) - 1 then
      let r := report_error error ASCIIP_ERR_INDEX
        "asciip_list_remove: Index was not in the bounds of the list." m
      .ok (.null, some l, r.1, r.2)
    else
      match asciip_list_remove_loop m (index - 1) .wild l.head with
      | .error f => .error f
      | .ok (prev_nodep, nodep) =>
        -- list->size--;
        let l1 := { l with size := (l.size + 65535) % 65536 }
        match rdNode m nodep with
        | .error f => .error f
        | .ok (a, nd) =>
          let relinked : Except Fault (Asciip_List × Mem) :=
            if index = 0 then
              -- list->head = nodep->next;
              .ok ({ l1 with head := nd.next }, m)
            else
              -- prev_nodep->next = nodep->next;
              match rdNode m prev_nodep with
              | .error f => .error f
              | .ok (pa, pn) => .ok (l1, m.setNode pa { pn with next := nd.next })
          match relinked with
          | .error f => .error f
          | .ok (l2, m1) =>
            -- nodep->next = NULL; point = nodep->data; free(nodep);
            match rdNode m1 nodep with
            | .error f => .error f
            | .ok (_, nd1) =>
              let m2 := m1.setNode a { nd1 with next := .null }
              let point := nd1.data
              .ok (point, some l2, error, free_node m2 a)

/-! ## Points -/

/-- Source: `asciip_point_init`. `result` is the slot `Asciip_Point **result`. -/
def asciip_point_init (m : Mem) (x y : Dbl) (result : Option Ptr)
    (error : Option Asciip_Error) :
    Except Fault (Ptr × Option Ptr × Option Asciip_Error × Mem) :=
  match result with
  | none =>
    let r := report_error error ASCIIP_ERR_NULL_PTR "asciip_point_init: Result was NULL.\n" m
    .ok (.null, none, r.1, r.2)
  | some slot =>
    match malloc_point m { x := x, y := y } with
    | none =>
      let r := report_error error ASCIIP_ERR_MEM
        "asciip_point_init: Could not allocate memory to point.\n" m
      .ok (.null, some slot, r.1, r.2)
    | some (pointp, m1) => .ok (.addr pointp, some (.addr pointp), error, m1)

/-- Source: `asciip_point_destroy`. -/
def asciip_point_destroy (m : Mem) (point : Ptr) : Except Fault Mem :=
  match isNull point with
  | .error f => .error f
  | .ok true => .ok m
  | .ok false =>
    match point with
    | .addr a =>
      match m.point a with
      | none => .error .dangling
      | some _ => .ok (free_point m a)
    | _ => .error .wild_use

/-! ## Teardown -/

/-- The loop `for (ind = 0; ind >= list->size - 1; ind++)` of `asciip_list_destroy`,
`ind` being a `uint8_t` and the comparison made in `int`. The local `pointp` is never
assigned (it is passed to `asciip_list_get` by value) and stays indeterminate.
The first argument bounds the number of iterations. -/
def asciip_list_destroy_loop (l : Asciip_List) :
    Nat → Mem → Nat → Option Asciip_Error → Except Fault (Int × Option Asciip_Error × Mem)
  | 0, _, _, _ => .error .out_of_fuel
  | fuel + 1, m, ind, error =>
    if (ind : Int) ≥ (l.size : Int) - 1 then
      match asciip_list_get m (some l) ind .wild error with
      | .error f => .error f
      | .ok (got, e, m1) =>
        match isNull got with
        | .error f => .error f
        | .ok true =>
          let r := report_error e ASCIIP_ERR_MEM
            "asciip_list_destroy: Could not destroy point passed" m1
          .ok (-1, r.1, r.2)
        | .ok false =>
          -- asciip_point_destroy(pointp);
          match asciip_point_destroy m1 .wild with
          | .error f => .error f
          | .ok m2 => asciip_list_destroy_loop l fuel m2 ((ind + 1) % 256) e
    else
      -- free(list); return 0;
      .ok (0, error, m)

/-- Source: `asciip_list_destroy`. -/
def asciip_list_destroy (m : Mem) (list : Option Asciip_List) (error : Option Asciip_Error) :
    Except Fault (Int × Option Asciip_Error × Mem) :=
  match list with
  | none => .ok (0, error, m)
  | some l => asciip_list_destroy_loop l 257 m 0 error

/-! ## Sorting -/

/-- The store `tail->next = v` of `asciip_merge_list`. `tail` is `none` while it still
points to the local `dummy_head`, whose `next` field is `dummy_next`. Returns the
new value of `dummy_head.next` and the memory. -/
def merge_store (m : Mem) (tail : Option Nat) (dummy_next : Ptr) (v : Ptr) :
    Except Fault (Ptr × Mem) :=
  match tail with
  | none => .ok (v, m)
  | some t =>
    match m.node t with
    | none => .error .dangling
    | some tn => .ok (dummy_next, m.setNode t { tn with next := v })

/-- The loop condition `(list1 != NULL) && (list2 != NULL)` of `asciip_merge_list`. -/
def merge_cond (list1 list2 : Ptr) : Except Fault Bool :=
  match isNull list1 with
  | .error f => .error f
  | .ok true => .ok false
  | .ok false =>
    match isNull list2 with
    | .error f => .error f
    | .ok true => .ok false
    | .ok false => .ok true

/-- The end of `asciip_merge_list`:
`tail->next = list1 ? list1 : list2; return dummy_head.next;`. -/
def merge_exit (m : Mem) (list1 list2 : Ptr) (tail : Option Nat) (dummy_next : Ptr) :
    Except Fault (Ptr × Mem) :=
  match isNull list1 with
  | .error f => .error f
  | .ok true => merge_store m tail dummy_next list2
  | .ok false => merge_store m tail dummy_next list1

/-- The body of the `while` loop of `asciip_merge_list`: the new values of
`list1`, `list2`, `tail`, `dummy_head.next` and the memory. -/
def merge_body (m : Mem) (list1 list2 : Ptr) (tail : Option Nat) (dummy_next : Ptr) :
    Except Fault (Ptr × Ptr × Option Nat × Ptr × Mem) :=
  match rdNode m list1 with
  | .error f => .error f
  | .ok (a1, n1) =>
    match rdPoint m n1.data with
    | .error f => .error f
    | .ok p1 =>
      match rdNode m list2 with
      | .error f => .error f
      | .ok (a2, n2) =>
        match rdPoint m n2.data with
        | .error f => .error f
        | .ok p2 =>
          if p1.x < p2.x then
            -- min = &list1; next = list1->next; tail = tail->next = list1; list1 = next;
            match merge_store m tail dummy_next (.addr a1) with
            | .error f => .error f
            | .ok (d, m1) => .ok (n1.next, list2, some a1, d, m1)
          else
            -- min = &list2; next = list2->next; tail = tail->next = list2; list2 = next;
            match merge_store m tail dummy_next (.addr a2) with
            | .error f => .error f
            | .ok (d, m1) => .ok (list1, n2.next, some a2, d, m1)

/-- The `while ((list1 != NULL) && (list2 != NULL))` loop of `asciip_merge_list`
followed by its last two statements. The first argument bounds the number of
iterations. -/
def asciip_merge_list_loop :
    Nat → Mem → Ptr → Ptr → Option Nat → Ptr → Except Fault (Ptr × Mem)
  | 0, m, list1, list2, tail, dummy_next =>
    match merge_cond list1 list2 with
    | .error f => .error f
    | .ok false => merge_exit m list1 list2 tail dummy_next
    | .ok true => .error .out_of_fuel
  | fuel + 1, m, list1, list2, tail, dummy_next =>
    match merge_cond list1 list2 with
    | .error f => .error f
    | .ok false => merge_exit m list1 list2 tail dummy_next
    | .ok true =>
      match merge_body m list1 list2 tail dummy_next with
      | .error f => .error f
      | .ok (l1, l2, t, d, m1) => asciip_merge_list_loop fuel m1 l1 l2 t d

/-- Source: `asciip_merge_list`. `dummy_head` is a local whose `next` field starts
indeterminate. -/
def asciip_merge_list (fuel : Nat) (m : Mem) (list1 list2 : Ptr) : Except Fault (Ptr × Mem) :=
  asciip_merge_list_loop fuel m list1 list2 none .wild

/-- Source: `asciip_merge_sort`. The first argument bounds the recursion depth; the
two recursive calls (arguments of `asciip_merge_list`) are made left to right. -/
def asciip_merge_sort :
    Nat → Mem → Ptr → Nat → Option Asciip_Error → Except Fault (Ptr × Option Asciip_Error × Mem)
  | 0, _, _, _, _ => .error .out_of_fuel
  | fuel + 1, m, head, list_size, error =>
    let list1 := head
    match isNull list1 with
    | .error f => .error f
    | .ok true => .ok (list1, error, m)
    | .ok false =>
      match rdNode m list1 with
      | .error f => .error f
      | .ok (_, n1) =>
        match isNull n1.next with
        | .error f => .error f
        | .ok true => .ok (list1, error, m)
        | .ok false =>
          let new_list_size := list_size / 2
          -- middlep = asciip_list_get_node(head, new_list_size, &middlep, error);
          match asciip_list_get_node m head new_list_size error with
          | .error f => .error f
          | .ok (middlep, e1, m1) =>
            -- list2 = middlep->next; middlep->next = NULL;
            match rdNode m1 middlep with
            | .error f => .error f
            | .ok (ma, mn) =>
              let list2 := mn.next
              let m2 := m1.setNode ma { mn with next := .null }
              match asciip_merge_sort fuel m2 list1 new_list_size e1 with
              | .error f => .error f
              | .ok (s1, e2, m3) =>
                match asciip_merge_sort fuel m3 list2 new_list_size e2 with
                | .error f => .error f
                | .ok (s2, e3, m4) =>
                  match asciip_merge_list fuel m4 s1 s2 with
                  | .error f => .error f
                  | .ok (r, m5) => .ok (r, e3, m5)

/-- Source: `asciip_list_sort`. A chain of `n` nodes is sorted with recursion depth at
most `n`, and every chain fits in the node heap, so the number of node cells bounds
the recursion. -/
def asciip_list_sort (m : Mem) (list : Option Asciip_List) (error : Option Asciip_Error) :
    Except Fault (Int × Option Asciip_List × Option Asciip_Error × Mem) :=
  match list with
  | none =>
    let r := report_error error ASCIIP_ERR_NULL_PTR
      "asciip_list_sort: List was NULL, cannot sort.\n" m
    .ok (-1, none, r.1, r.2)
  | some l =>
    match asciip_merge_sort (m.nodes.length + 1) m l.head l.size error with
    | .error f => .error f
    | .ok (nodep, e, m1) =>
      match isNull nodep with
      | .error f => .error f
      | .ok true => .ok (-1, some l, e, m1)
      | .ok false => .ok (0, some { l with head := nodep }, e, m1)

/-- The split of `asciip_merge_sort` (the statements between the base case and the
`return`): `new_list_size = list_size / 2;`
`middlep = asciip_list_get_node(head, new_list_size, &middlep, error);`
`list2 = middlep->next; middlep->next = NULL;`.
Returns `list2`, `new_list_size`, the tracker and the memory. -/
def merge_sort_sever (m : Mem) (head : Ptr) (list_size : Nat) (error : Option Asciip_Error) :
    Except Fault (Ptr × Nat × Option Asciip_Error × Mem) :=
  let new_list_size := list_size / 2
  match asciip_list_get_node m head new_list_size error with
  | .error f => .error f
  | .ok (middlep, e1, m1) =>
    match rdNode m1 middlep with
    | .error f => .error f
    | .ok (ma, mn) => .ok (mn.next, new_list_size, e1, m1.setNode ma { mn with next := .null })

/-- The `return` of `asciip_merge_sort` after the split:
`asciip_merge_list(asciip_merge_sort(list1, new_list_size, error),
asciip_merge_sort(list2, new_list_size, error))`. -/
def merge_sort_recurse (fuel : Nat) (m : Mem) (list1 list2 : Ptr) (new_list_size : Nat)
    (error : Option Asciip_Error) : Except Fault (Ptr × Option Asciip_Error × Mem) :=
  match asciip_merge_sort fuel m list1 new_list_size error with
  | .error f => .error f
  | .ok (s1, e2, m3) =>
    match asciip_merge_sort fuel m3 list2 new_list_size e2 with
    | .error f => .error f
    | .ok (s2, e3, m4) =>
      match asciip_merge_list fuel m4 s1 s2 with
      | .error f => .error f
      | .ok (r, m5) => .ok (r, e3, m5)

/-! ## Specification vocabulary -/

deriving instance DecidableEq for Except

/-- One element of a chain: the address of a node and the address of the point it carries. -/
structure Cell where
  node : Nat
  point : Nat
  deriving DecidableEq, Repr

/-- `Seg m p cs q`: following `next` links from pointer `p` visits exactly the nodes of
`cs`, in order, each carrying its point, and the `next` link of the last one is `q`
(`p = q` when `cs` is empty). -/
def Seg (m : Mem) : Ptr → List Cell → Ptr → Prop
  | p, [], q => p = q
  | p, c :: cs, q =>
    p = .addr c.node ∧
      match m.node c.node with
      | some nd => nd.data = .addr c.point ∧ Seg m nd.next cs q
      | none => False

instance Seg.instDecidable (m : Mem) : ∀ (p : Ptr) (cs : List Cell) (q : Ptr),
    Decidable (Seg m p cs q)
  | p, [], q => inferInstanceAs (Decidable (p = q))
  | p, c :: cs, q =>
    match h : m.node c.node with
    | some nd =>
      have := Seg.instDecidable m nd.next cs q
      decidable_of_iff (p = .addr c.node ∧ nd.data = .addr c.point ∧ Seg m nd.next cs q)
        (by simp [Seg, h])
    | none => isFalse (by simp [Seg, h])

/-- A finite null-terminated chain starting at `p` whose traversal is `cs`. -/
def Chain (m : Mem) (p : Ptr) (cs : List Cell) : Prop := Seg m p cs .null

instance Chain.instDecidable (m : Mem) (p : Ptr) (cs : List Cell) : Decidable (Chain m p cs) :=
  Seg.instDecidable m p cs .null

/-- Pointer to the last node of a traversal (`NULL` for the empty one). -/
def lastPtr (cs : List Cell) : Ptr :=
  match cs.getLast? with
  | none => .null
  | some c => .addr c.node

/-- The list invariant of the data model: the chain from `head` is finite and
null-terminated with traversal `cs`, `size` (a `uint16_t`) is the number of nodes,
`tail` refers to the last node (or is absent for the empty list), and every node
carries an allocated point. -/
structure WellFormed (m : Mem) (l : Asciip_List) (cs : List Cell) : Prop where
  chain : Chain m l.head cs
  size_eq : l.size = cs.length
  size_lt : cs.length < 65536
  tail_eq : l.tail = lastPtr cs
  points : ∀ c ∈ cs, (m.point c.point).isSome = true

instance WellFormed.instDecidable (m : Mem) (l : Asciip_List) (cs : List Cell) :
    Decidable (WellFormed m l cs) :=
  decidable_of_iff
    (Chain m l.head cs ∧ l.size = cs.length ∧ cs.length < 65536 ∧ l.tail = lastPtr cs ∧
      ∀ c ∈ cs, (m.point c.point).isSome = true)
    ⟨fun h => ⟨h.1, h.2.1, h.2.2.1, h.2.2.2.1, h.2.2.2.2⟩,
     fun h => ⟨h.chain, h.size_eq, h.size_lt, h.tail_eq, h.points⟩⟩

/-- The sort key of a cell: the `x` coordinate of its point. -/
def xOf (m : Mem) (c : Cell) : Dbl :=
  match m.point c.point with
  | some pt => pt.x
  | none => 0

/-- Traversal order is non-decreasing in `x`: every cell's key is `<=` the key of
every later cell (the C comparison, which a NaN key never satisfies). -/
def SortedByX (m : Mem) (cs : List Cell) : Prop :=
  cs.Pairwise (fun a b => xOf m a ≤ xOf m b)

/-- No cell of the traversal has a NaN sort key. -/
def NoNaN (m : Mem) (cs : List Cell) : Prop :=
  ∀ c ∈ cs, xOf m c ≠ Dbl.nan

instance NoNaN.instDecidable (m : Mem) (cs : List Cell) : Decidable (NoNaN m cs) :=
  inferInstanceAs (Decidable (∀ c ∈ cs, xOf m c ≠ Dbl.nan))

/-- The part of the memory that sorting never changes, and the node cells outside
`touched` keep their content. -/
def Frame (m m1 : Mem) (touched : Nat → Prop) : Prop :=
  m1.points = m.points ∧ m1.avail = m.avail ∧ m1.out = m.out ∧
    m1.nodes.length = m.nodes.length ∧ ∀ b, ¬ touched b → m1.node b = m.node b

/-- Outcome of the merge loop started on the chains `l1`, `l2` with the output cursor
`tail` (`none`: still the local `dummy_head`, whose `next` field is `d`): it returns
`dummy_head.next` and a memory in which a null-terminated chain `cs`, made of exactly
the cells of `l1` and `l2` and sorted when both were and no key is NaN, hangs off the
cursor. -/
def MergePost (m : Mem) (l1 l2 : List Cell) (tail : Option Nat) (d : Ptr)
    (res : Except Fault (Ptr × Mem)) : Prop :=
  ∃ d1 m1 r cs, res = .ok (d1, m1) ∧
    Seg m1 r cs .null ∧ cs.Perm (l1 ++ l2) ∧
    (NoNaN m (l1 ++ l2) → SortedByX m l1 → SortedByX m l2 → SortedByX m cs) ∧
    (tail = none → d1 = r) ∧
    (∀ t, tail = some t → d1 = d ∧ ∃ tn0 tn, m.node t = some tn0 ∧ m1.node t = some tn ∧
      tn.next = r ∧ tn.data = tn0.data) ∧
    Frame m m1 (fun b => b ∈ (l1 ++ l2).map Cell.node ∨ tail = some b)

/-- Correctness statement of the merge loop for a given iteration bound: started on two
disjoint null-terminated chains of allocated points, with a cursor outside them and at
least `l1.length + l2.length - 1` iterations allowed, it ends as `MergePost` says. -/
def MergeLoopOk (fuel : Nat) : Prop :=
  ∀ (l1 l2 : List Cell) (m : Mem) (list1 list2 : Ptr) (tail : Option Nat) (d : Ptr),
    Seg m list1 l1 .null → Seg m list2 l2 .null →
    ((l1 ++ l2).map Cell.node).Nodup →
    (∀ c ∈ l1 ++ l2, (m.point c.point).isSome = true) →
    (∀ t, tail = some t → t ∉ (l1 ++ l2).map Cell.node ∧ (m.node t).isSome = true) →
    l1.length + l2.length ≤ fuel + 1 →
    MergePost m l1 l2 tail d (asciip_merge_list_loop fuel m list1 list2 tail d)

/-- Correctness statement of `asciip_merge_sort` for a given recursion bound: on a
null-terminated chain `cs` of allocated points, called with a size argument that does
not exceed the length of the chain, it returns (without reporting an error) a
null-terminated chain made of the same cells, sorted by `x` when no key is NaN, and
touches no other node. -/
def MergeSortOk (fuel : Nat) : Prop :=
  ∀ (cs : List Cell) (m : Mem) (head : Ptr) (s : Nat) (error : Option Asciip_Error),
    Seg m head cs .null → (∀ c ∈ cs, (m.point c.point).isSome = true) →
    s ≤ cs.length → cs.length < fuel →
    ∃ r m1 cs1, asciip_merge_sort fuel m head s error = .ok (r, error, m1) ∧
      Seg m1 r cs1 .null ∧ cs1.Perm cs ∧ (NoNaN m cs → SortedByX m cs1) ∧
      Frame m m1 (fun b => b ∈ cs.map Cell.node)

/-! ## A concrete list

Three points `(3,0)`, `(1,0)`, `(2,0)` stored, in this order, in a well-formed list of
three nodes. -/

/-- Memory holding the points `(3,0)`, `(1,0)`, `(2,0)` and a chain of three nodes. -/
def exMem : Mem :=
  { nodes := [some ⟨.addr 0, .addr 1⟩, some ⟨.addr 1, .addr 2⟩, some ⟨.addr 2, .null⟩]
    points := [some ⟨3, 0⟩, some ⟨1, 0⟩, some ⟨2, 0⟩]
    avail := 8
    out := [] }

/-- The list structure over `exMem`. -/
def exList : Asciip_List := { size := 3, head := .addr 0, tail := .addr 2 }

/-- The traversal of `exList`. -/
def exCells : List Cell := [⟨0, 0⟩, ⟨1, 1⟩, ⟨2, 2⟩]

/-- The empty list structure. -/
def emptyList : Asciip_List := { size := 0, head := .null, tail := .null }

/-- The one-element list made of the last node of `exMem`. -/
def exList1 : Asciip_List := { size := 1, head := .addr 2, tail := .addr 2 }

/-- Memory holding two disjoint sorted chains: nodes `0, 1` with `x = 1, 3` and node `2`
with `x = 2`. -/
def exMergeMem : Mem :=
  { nodes := [some ⟨.addr 0, .addr 1⟩, some ⟨.addr 1, .null⟩, some ⟨.addr 2, .null⟩]
    points := [some ⟨1, 0⟩, some ⟨3, 0⟩, some ⟨2, 0⟩]
    avail := 8
    out := [] }

/-- The traversal of the first chain of `exMergeMem`. -/
def exMergeCells1 : List Cell := [⟨0, 0⟩, ⟨1, 1⟩]

/-- The traversal of the second chain of `exMergeMem`. -/
def exMergeCells2 : List Cell := [⟨2, 2⟩]

/-- Memory holding a well-formed two-element chain whose points have the same `x`. -/
def exTieMem : Mem :=
  { nodes := [some ⟨.addr 0, .addr 1⟩, some ⟨.addr 1, .null⟩]
    points := [some ⟨5, 0⟩, some ⟨5, 1⟩]
    avail := 8
    out := [] }

/-- The list structure over `exTieMem`. -/
def exTieList : Asciip_List := { size := 2, head := .addr 0, tail := .addr 1 }

/-- Memory holding two one-node chains whose points have the same `x`. -/
def exTieSplitMem : Mem :=
  { nodes := [some ⟨.addr 0, .null⟩, some ⟨.addr 1, .null⟩]
    points := [some ⟨5, 0⟩, some ⟨5, 1⟩]
    avail := 8
    out := [] }

/-- Memory holding `n` points and a chain of `n` nodes: node `i` carries point `i` and
links to node `i + 1`, the last one to `NULL`; one more allocation can succeed. -/
def rowMem (n : Nat) : Mem :=
  { nodes := (List.range n).map
      (fun i => some ⟨.addr i, if i + 1 = n then .null else .addr (i + 1)⟩)
    points := (List.range n).map (fun (i : Nat) => some ⟨.fin (i : ℚ), 0⟩)
    avail := 1
    out := [] }

/-- The list structure over `rowMem n`. -/
def rowList (n : Nat) : Asciip_List := { size := n, head := .addr 0, tail := .addr (n - 1) }

/-- The traversal of `rowList n`. -/
def rowCells (n : Nat) : List Cell := (List.range' 0 n).map (fun i => ⟨i, i⟩)

/-- Memory holding a well-formed list of four nodes whose points have the `x` values
`5`, NaN, `1`, `9`, in this order. -/
def exNanMem : Mem :=
  { nodes := [some ⟨.addr 0, .addr 1⟩, some ⟨.addr 1, .addr 2⟩, some ⟨.addr 2, .addr 3⟩,
      some ⟨.addr 3, .null⟩]
    points := [some ⟨5, 0⟩, some ⟨.nan, 0⟩, some ⟨1, 0⟩, some ⟨9, 0⟩]
    avail := 8
    out := [] }

/-- The list structure over `exNanMem`. -/
def exNanList : Asciip_List := { size := 4, head := .addr 0, tail := .addr 3 }

/-- The traversal of `exNanList`. -/
def exNanCells : List Cell := [⟨0, 0⟩, ⟨1, 1⟩, ⟨2, 2⟩, ⟨3, 3⟩]

/-- Memory holding two one-node chains: node `0` with `x` NaN and node `1` with `x = 1`. -/
def exNanMergeMem : Mem :=
  { nodes := [some ⟨.addr 0, .null⟩, some ⟨.addr 1, .null⟩]
    points := [some ⟨.nan, 0⟩, some ⟨1, 0⟩]
    avail := 8
    out := [] }

/-- The traversal of the first chain of `exNanMergeMem`. -/
def exNanMergeCells1 : List Cell := [⟨0, 0⟩]

/-- The traversal of the second chain of `exNanMergeMem`. -/
def exNanMergeCells2 : List Cell := [⟨1, 1⟩]

/-- The memory after sorting `exNanList`: the chain is node `2`, `3`, `1`, `0`. -/
def exNanSortedMem : Mem :=
  { nodes := [some ⟨.addr 0, .null⟩, some ⟨.addr 1, .addr 0⟩, some ⟨.addr 2, .addr 3⟩,
      some ⟨.addr 3, .addr 1⟩]
    points := [some ⟨5, 0⟩, some ⟨.nan, 0⟩, some ⟨1, 0⟩, some ⟨9, 0⟩]
    avail := 8
    out := [] }

/-- The traversal of the chain of `exNanSortedMem` from node `2`. -/
def exNanSortedCells : List Cell := [⟨2, 2⟩, ⟨3, 3⟩, ⟨1, 1⟩, ⟨0, 0⟩]

/-- The memory after merging the two chains of `exNanMergeMem`: node `1` links to
node `0`. -/
def exNanMergedMem : Mem :=
  { nodes := [some ⟨.addr 0, .null⟩, some ⟨.addr 1, .addr 0⟩]
    points := [some ⟨.nan, 0⟩, some ⟨1, 0⟩]
    avail := 8
    out := [] }

/-- The traversal of the chain of `exNanMergedMem` from node `1`. -/
def exNanMergedCells : List Cell := [⟨1, 1⟩, ⟨0, 0⟩]

/-! ## Comparison of doubles -/

theorem Dbl_lt_iff (a b : Dbl) : a < b ↔ Dbl.lt a b = true := Iff.rfl

theorem Dbl_le_iff (a b : Dbl) : a ≤ b ↔ Dbl.le a b = true := Iff.rfl

theorem Dbl_le_of_lt {a b : Dbl} (h : a < b) : a ≤ b := by
  rw [Dbl_lt_iff] at h
  rw [Dbl_le_iff]
  cases a <;> cases b <;> simp_all [Dbl.lt, Dbl.le]
  exact h.le

/-- When neither side is NaN, `a < b` being false means `b <= a`. -/
theorem Dbl_le_of_not_lt {a b : Dbl} (ha : a ≠ .nan) (hb : b ≠ .nan) (h : ¬ a < b) :
    b ≤ a := by
  rw [Dbl_lt_iff] at h
  rw [Dbl_le_iff]
  cases a <;> cases b <;> simp_all [Dbl.lt, Dbl.le]

theorem Dbl_le_trans {a b c : Dbl} (h1 : a ≤ b) (h2 : b ≤ c) : a ≤ c := by
  rw [Dbl_le_iff] at h1 h2 ⊢
  cases a <;> cases b <;> cases c <;> simp_all [Dbl.lt, Dbl.le]
  exact h1.trans h2

theorem Dbl_lt_irrefl (a : Dbl) : ¬ a < a := by
  rw [Dbl_lt_iff]
  cases a <;> simp [Dbl.lt]

/-! ## Memory lemmas -/

theorem Mem.node_lt {m : Mem} {a : Nat} {n : Asciip_Node} (h : m.node a = some n) :
    a < m.nodes.length := by
  by_contra hlt
  have : m.node a = none := by
    unfold Mem.node
    rw [List.getD_eq_getElem?_getD, List.getElem?_eq_none (by omega)]
    rfl
  rw [this] at h
  cases h

theorem Mem.node_setNode_self (m : Mem) {a : Nat} (n : Asciip_Node) (h : a < m.nodes.length) :
    (m.setNode a n).node a = some n := by
  unfold Mem.node Mem.setNode
  simp [List.getD_eq_getElem?_getD, List.getElem?_set, h]

theorem Mem.node_setNode_of_ne (m : Mem) {a b : Nat} (n : Asciip_Node) (h : a ≠ b) :
    (m.setNode a n).node b = m.node b := by
  unfold Mem.node Mem.setNode
  simp [List.getD_eq_getElem?_getD, List.getElem?_set, h]

theorem Mem.point_setNode (m : Mem) (a b : Nat) (n : Asciip_Node) :
    (m.setNode a n).point b = m.point b := rfl

theorem xOf_congr {m m1 : Mem} (h : m1.points = m.points) (c : Cell) : xOf m1 c = xOf m c := by
  unfold xOf Mem.point
  rw [h]

/-! ## Chain lemmas -/

theorem Seg_nil_iff (m : Mem) (p q : Ptr) : Seg m p [] q ↔ p = q := by
  simp [Seg]

theorem Seg_cons_iff (m : Mem) (p q : Ptr) (c : Cell) (cs : List Cell) :
    Seg m p (c :: cs) q ↔
      p = .addr c.node ∧ ∃ nxt, m.node c.node = some ⟨.addr c.point, nxt⟩ ∧ Seg m nxt cs q := by
  constructor
  · intro h
    simp only [Seg] at h
    obtain ⟨hp, h⟩ := h
    refine ⟨hp, ?_⟩
    cases hn : m.node c.node with
    | none => rw [hn] at h; exact h.elim
    | some nd =>
      rw [hn] at h
      obtain ⟨d, nx⟩ := nd
      simp only at h
      exact ⟨nx, by rw [h.1], h.2⟩
  · rintro ⟨hp, nxt, hn, h⟩
    simp only [Seg]
    refine ⟨hp, ?_⟩
    rw [hn]
    exact ⟨rfl, h⟩

theorem Seg.congr {m m1 : Mem} {cs : List Cell} :
    ∀ {p q : Ptr}, (∀ c ∈ cs, m1.node c.node = m.node c.node) → Seg m p cs q → Seg m1 p cs q := by
  induction cs with
  | nil => intro p q _ h; simpa [Seg] using h
  | cons c cs ih =>
    intro p q hc h
    rw [Seg_cons_iff] at h ⊢
    obtain ⟨hp, nxt, hn, hs⟩ := h
    refine ⟨hp, nxt, ?_, ih (fun c1 h1 => hc c1 (List.mem_cons_of_mem _ h1)) hs⟩
    rw [hc c (List.mem_cons_self _ _)]
    exact hn

theorem Seg_append_iff (m : Mem) (l1 l2 : List Cell) :
    ∀ (p q : Ptr), Seg m p (l1 ++ l2) q ↔ ∃ r, Seg m p l1 r ∧ Seg m r l2 q := by
  induction l1 with
  | nil =>
    intro p q
    simp [Seg]
  | cons c l1 ih =>
    intro p q
    simp only [List.cons_append, Seg_cons_iff, ih]
    constructor
    · rintro ⟨hp, nxt, hn, r, h1, h2⟩
      exact ⟨r, ⟨hp, nxt, hn, h1⟩, h2⟩
    · rintro ⟨r, ⟨hp, nxt, hn, h1⟩, h2⟩
      exact ⟨hp, nxt, hn, r, h1, h2⟩

theorem Seg.functional {m : Mem} {l1 : List Cell} :
    ∀ {l2 : List Cell} {p : Ptr}, Seg m p l1 .null → Seg m p l2 .null → l1 = l2 := by
  induction l1 with
  | nil =>
    intro l2 p h1 h2
    rw [Seg_nil_iff] at h1
    subst h1
    cases l2 with
    | nil => rfl
    | cons c l2 =>
      rw [Seg_cons_iff] at h2
      cases h2.1
  | cons c l1 ih =>
    intro l2 p h1 h2
    rw [Seg_cons_iff] at h1
    obtain ⟨hp, nxt, hn, hs⟩ := h1
    subst hp
    cases l2 with
    | nil =>
      rw [Seg_nil_iff] at h2
      cases h2
    | cons c2 l2 =>
      rw [Seg_cons_iff] at h2
      obtain ⟨hp2, nxt2, hn2, hs2⟩ := h2
      have hnode : c.node = c2.node := by injection hp2
      rw [← hnode, hn] at hn2
      have hpt : c.point = c2.point := by
        have := congrArg Asciip_Node.data (Option.some.inj hn2)
        simpa using this
      have hnx : nxt = nxt2 := congrArg Asciip_Node.next (Option.some.inj hn2)
      subst hnx
      have hc : c = c2 := by
        cases c; cases c2; simp_all
      rw [hc, ih hs hs2]

theorem Seg.nodup {m : Mem} {cs : List Cell} :
    ∀ {p : Ptr}, Seg m p cs .null → (cs.map Cell.node).Nodup := by
  induction cs with
  | nil => intro p _; simp
  | cons c cs ih =>
    intro p h
    have h0 := h
    rw [Seg_cons_iff] at h
    obtain ⟨hp, nxt, hn, hs⟩ := h
    rw [List.map_cons, List.nodup_cons]
    refine ⟨?_, ih hs⟩
    intro hmem
    obtain ⟨c1, hc1, hc1n⟩ := List.mem_map.mp hmem
    obtain ⟨l1, l2, hsplit⟩ := List.append_of_mem hc1
    rw [hsplit, Seg_append_iff] at hs
    obtain ⟨r, _, hr⟩ := hs
    have hr0 := hr
    rw [Seg_cons_iff] at hr
    have hrp : r = p := by rw [hr.1, hp, hc1n]
    rw [hrp] at hr0
    have := congrArg List.length (Seg.functional h0 hr0)
    rw [hsplit] at this
    simp at this
    omega

/-! ## The merge loop -/

theorem merge_store_none (m : Mem) (d v : Ptr) : merge_store m none d v = .ok (v, m) := rfl

theorem merge_store_some {m : Mem} {t : Nat} {tn : Asciip_Node} (h : m.node t = some tn)
    (d v : Ptr) :
    merge_store m (some t) d v = .ok (d, m.setNode t { tn with next := v }) := by
  simp [merge_store, h]

/-- What one store through `tail` achieves. -/
theorem merge_store_spec (m : Mem) (tail : Option Nat) (d v : Ptr)
    (ht : ∀ t, tail = some t → (m.node t).isSome = true) :
    ∃ d1 m1, merge_store m tail d v = .ok (d1, m1) ∧
      (tail = none → d1 = v) ∧
      (∀ t, tail = some t → d1 = d ∧ ∃ tn0, m.node t = some tn0 ∧
        m1.node t = some { tn0 with next := v }) ∧
      m1.points = m.points ∧ m1.avail = m.avail ∧ m1.out = m.out ∧
      m1.nodes.length = m.nodes.length ∧
      (∀ b, tail ≠ some b → m1.node b = m.node b) := by
  cases tail with
  | none =>
    exact ⟨v, m, rfl, fun _ => rfl, fun t h => (by cases h), rfl, rfl, rfl, rfl, fun _ _ => rfl⟩
  | some t =>
    have h := ht t rfl
    obtain ⟨tn0, htn⟩ := Option.isSome_iff_exists.mp h
    refine ⟨d, m.setNode t { tn0 with next := v }, merge_store_some htn d v,
      fun h => (by cases h), ?_, rfl, rfl, rfl, ?_, ?_⟩
    · intro t1 h1
      cases h1
      exact ⟨rfl, tn0, htn, Mem.node_setNode_self m _ (Mem.node_lt htn)⟩
    · simp [Mem.setNode]
    · intro b hb
      apply Mem.node_setNode_of_ne
      intro hbt
      exact hb (by rw [hbt])

theorem merge_loop_null_left (fuel : Nat) (m : Mem) (list2 : Ptr) (tail : Option Nat) (d : Ptr) :
    asciip_merge_list_loop fuel m .null list2 tail d = merge_store m tail d list2 := by
  cases fuel <;> simp [asciip_merge_list_loop, merge_cond, merge_exit, isNull]

theorem merge_loop_null_right (fuel : Nat) (m : Mem) (a : Nat) (tail : Option Nat) (d : Ptr) :
    asciip_merge_list_loop fuel m (.addr a) .null tail d = merge_store m tail d (.addr a) := by
  cases fuel <;> simp [asciip_merge_list_loop, merge_cond, merge_exit, isNull]

theorem merge_loop_step_lt (fuel : Nat) (m m1 : Mem) (a b : Cell) (nx1 nx2 : Ptr)
    (p1 p2 : Asciip_Point) (tail : Option Nat) (d d1 : Ptr)
    (ha : m.node a.node = some ⟨.addr a.point, nx1⟩) (hb : m.node b.node = some ⟨.addr b.point, nx2⟩)
    (hp1 : m.point a.point = some p1) (hp2 : m.point b.point = some p2)
    (hlt : p1.x < p2.x) (hst : merge_store m tail d (.addr a.node) = .ok (d1, m1)) :
    asciip_merge_list_loop (fuel + 1) m (.addr a.node) (.addr b.node) tail d =
      asciip_merge_list_loop fuel m1 nx1 (.addr b.node) (some a.node) d1 := by
  simp [asciip_merge_list_loop, merge_cond, merge_body, isNull, rdNode, rdPoint, ha, hb, hp1, hp2,
    hlt, hst]

theorem merge_loop_step_ge (fuel : Nat) (m m1 : Mem) (a b : Cell) (nx1 nx2 : Ptr)
    (p1 p2 : Asciip_Point) (tail : Option Nat) (d d1 : Ptr)
    (ha : m.node a.node = some ⟨.addr a.point, nx1⟩) (hb : m.node b.node = some ⟨.addr b.point, nx2⟩)
    (hp1 : m.point a.point = some p1) (hp2 : m.point b.point = some p2)
    (hge : ¬ p1.x < p2.x) (hst : merge_store m tail d (.addr b.node) = .ok (d1, m1)) :
    asciip_merge_list_loop (fuel + 1) m (.addr a.node) (.addr b.node) tail d =
      asciip_merge_list_loop fuel m1 (.addr a.node) nx2 (some b.node) d1 := by
  simp [asciip_merge_list_loop, merge_cond, merge_body, isNull, rdNode, rdPoint, ha, hb, hp1, hp2,
    hge, hst]

theorem xOf_eq {m : Mem} {c : Cell} {p : Asciip_Point} (h : m.point c.point = some p) :
    xOf m c = p.x := by
  simp [xOf, h]

theorem point_of_isSome {m : Mem} {a : Nat} (h : (m.point a).isSome = true) :
    ∃ p, m.point a = some p := Option.isSome_iff_exists.mp h

theorem Mem.point_congr {m m1 : Mem} (h : m1.points = m.points) (a : Nat) :
    m1.point a = m.point a := by
  unfold Mem.point
  rw [h]

theorem SortedByX_congr {m m1 : Mem} (h : m1.points = m.points) (cs : List Cell) :
    SortedByX m1 cs ↔ SortedByX m cs := by
  unfold SortedByX
  simp only [xOf_congr h]

theorem NoNaN_congr {m m1 : Mem} (h : m1.points = m.points) (cs : List Cell) :
    NoNaN m1 cs ↔ NoNaN m cs := by
  unfold NoNaN
  simp only [xOf_congr h]

theorem NoNaN.mono {m : Mem} {cs cs1 : List Cell} (h : NoNaN m cs) (hsub : ∀ c ∈ cs1, c ∈ cs) :
    NoNaN m cs1 :=
  fun c hc => h c (hsub c hc)

theorem Frame.refl (m : Mem) (touched : Nat → Prop) : Frame m m touched :=
  ⟨rfl, rfl, rfl, rfl, fun _ _ => rfl⟩

theorem Frame.trans {m m1 m2 : Mem} {t1 t2 t : Nat → Prop} (h1 : Frame m m1 t1)
    (h2 : Frame m1 m2 t2) (ht1 : ∀ b, t1 b → t b) (ht2 : ∀ b, t2 b → t b) : Frame m m2 t := by
  obtain ⟨a1, a2, a3, a4, a5⟩ := h1
  obtain ⟨b1, b2, b3, b4, b5⟩ := h2
  refine ⟨b1.trans a1, b2.trans a2, b3.trans a3, b4.trans a4, fun b hb => ?_⟩
  rw [b5 b (fun h => hb (ht2 b h)), a5 b (fun h => hb (ht1 b h))]

/-- One store through the output cursor. -/
theorem merge_store_frame (m : Mem) (tail : Option Nat) (d v : Ptr)
    (ht : ∀ t, tail = some t → (m.node t).isSome = true) :
    ∃ d1 m1, merge_store m tail d v = .ok (d1, m1) ∧
      (tail = none → d1 = v) ∧
      (∀ t, tail = some t → d1 = d ∧ ∃ tn0, m.node t = some tn0 ∧
        m1.node t = some { tn0 with next := v }) ∧
      Frame m m1 (fun b => tail = some b) := by
  obtain ⟨d1, m1, hst, hnone, hsome, hp, hav, hout, hlen, hfr⟩ := merge_store_spec m tail d v ht
  exact ⟨d1, m1, hst, hnone, hsome, hp, hav, hout, hlen, hfr⟩

/-- Leaving the merge loop when one of the two chains is exhausted. -/
theorem merge_loop_exit (fuel : Nat) (l1 l2 : List Cell) (m : Mem) (list1 list2 : Ptr)
    (tail : Option Nat) (d : Ptr) (hnil : l1 = [] ∨ l2 = [])
    (h1 : Seg m list1 l1 .null) (h2 : Seg m list2 l2 .null)
    (ht : ∀ t, tail = some t → t ∉ (l1 ++ l2).map Cell.node ∧ (m.node t).isSome = true) :
    MergePost m l1 l2 tail d (asciip_merge_list_loop fuel m list1 list2 tail d) := by
  have key : ∀ (v : Ptr) (cs : List Cell), Seg m v cs .null → cs = l1 ++ l2 →
      asciip_merge_list_loop fuel m list1 list2 tail d = merge_store m tail d v →
      MergePost m l1 l2 tail d (asciip_merge_list_loop fuel m list1 list2 tail d) := by
    intro v cs hseg hcs hrun
    obtain ⟨d1, m1, hst, hnone, hsome, hfr⟩ := merge_store_frame m tail d v (fun t h => (ht t h).2)
    refine ⟨d1, m1, v, cs, by rw [hrun, hst], ?_, by rw [hcs], ?_, hnone, ?_, ?_⟩
    · apply Seg.congr _ hseg
      intro c hc
      apply hfr.2.2.2.2
      intro hcontra
      exact (ht _ hcontra).1 (by rw [← hcs]; exact List.mem_map_of_mem _ hc)
    · intro _ s1 s2
      rcases hnil with h | h
      · subst h; simpa [hcs] using s2
      · subst h; simpa [hcs] using s1
    · intro t h
      obtain ⟨hd, tn0, h0, h1⟩ := hsome t h
      exact ⟨hd, tn0, _, h0, h1, rfl, rfl⟩
    · exact ⟨hfr.1, hfr.2.1, hfr.2.2.1, hfr.2.2.2.1, fun b hb =>
        hfr.2.2.2.2 b (fun h => hb (Or.inr h))⟩
  cases l1 with
  | nil =>
    rw [Seg_nil_iff] at h1
    subst h1
    exact key list2 l2 h2 (by simp) (merge_loop_null_left fuel m list2 tail d)
  | cons a l1 =>
    rcases hnil with h | h
    · cases h
    · subst h
      have h1c := h1
      rw [Seg_cons_iff] at h1c
      obtain ⟨hp1, _⟩ := h1c
      subst hp1
      rw [Seg_nil_iff] at h2
      subst h2
      exact key (.addr a.node) (a :: l1) h1 (by simp) (merge_loop_null_right fuel m _ tail d)

theorem merge_loop_take_first (k : Nat) (a b : Cell) (l1 l2 : List Cell) (m : Mem) (tail : Option Nat)
    (d nx1 nx2 : Ptr) (p1 p2 : Asciip_Point)
    (ha : m.node a.node = some ⟨.addr a.point, nx1⟩) (hb : m.node b.node = some ⟨.addr b.point, nx2⟩)
    (hp1 : m.point a.point = some p1) (hp2 : m.point b.point = some p2)
    (hlt : p1.x < p2.x) :
    MergeLoopOk k →
    Seg m (.addr a.node) (a :: l1) .null → Seg m (.addr b.node) (b :: l2) .null →
    (((a :: l1) ++ (b :: l2)).map Cell.node).Nodup →
    (∀ c ∈ (a :: l1) ++ (b :: l2), (m.point c.point).isSome = true) →
    (∀ t, tail = some t → t ∉ ((a :: l1) ++ (b :: l2)).map Cell.node ∧ (m.node t).isSome = true) →
    (a :: l1).length + (b :: l2).length ≤ k + 1 + 1 →
    MergePost m (a :: l1) (b :: l2) tail d
      (asciip_merge_list_loop (k + 1) m (.addr a.node) (.addr b.node) tail d) := by
  intro ih h1 h2 hnd hpts ht hlen
  have h1c := h1
  have h2c := h2
  rw [Seg_cons_iff] at h1c h2c
  obtain ⟨_, nx1', ha', hs1⟩ := h1c
  obtain ⟨_, nx2', hb', hs2⟩ := h2c
  rw [ha] at ha'
  rw [hb] at hb'
  have e1 : nx1' = nx1 := by
    have := congrArg Asciip_Node.next (Option.some.inj ha')
    exact this.symm
  have e2 : nx2' = nx2 := by
    have := congrArg Asciip_Node.next (Option.some.inj hb')
    exact this.symm
  rw [e1] at hs1
  rw [e2] at hs2
  have hxa : xOf m a = p1.x := xOf_eq hp1
  have hxb : xOf m b = p2.x := xOf_eq hp2
  simp only [List.cons_append, List.map_cons, List.nodup_cons, List.map_append,
    List.mem_append, List.mem_cons, List.mem_map, List.nodup_append] at hnd
  obtain ⟨d1, m1, hst, hnone, hsome, hfr⟩ :=
    merge_store_frame m tail d (.addr a.node) (fun t h => (ht t h).2)
  rw [merge_loop_step_lt k m m1 a b nx1 nx2 p1 p2 tail d d1 ha hb hp1 hp2 hlt hst]
  have hsame : ∀ c ∈ a :: l1 ++ b :: l2, m1.node c.node = m.node c.node := by
    intro c hc
    apply hfr.2.2.2.2
    intro hcontra
    exact (ht _ hcontra).1 (List.mem_map_of_mem _ hc)
  have ha1 : m1.node a.node = some ⟨.addr a.point, nx1⟩ := by
    rw [hsame a (by simp), ha]
  obtain ⟨d2, m2, r, cs, hrun, hseg, hperm, hsorted, hnone2, hsome2, hfr2⟩ :=
    ih l1 (b :: l2) m1 nx1 (.addr b.node) (some a.node) d1
      (Seg.congr (fun c hc => hsame c (by simp [hc])) hs1)
      (Seg.congr (fun c hc => hsame c (by
        simp only [List.cons_append, List.mem_cons, List.mem_append]
        exact Or.inr (Or.inr (List.mem_cons.mp hc)))) h2)
      (by
        simp only [List.map_cons, List.nodup_cons, List.map_append,
          List.mem_append, List.mem_cons, List.mem_map, List.nodup_append]
        exact hnd.2)
      (fun c hc => by
        rw [Mem.point_congr hfr.1]
        exact hpts c (by simp only [List.cons_append, List.mem_cons]; exact Or.inr hc))
      (fun t h => by
        cases h
        refine ⟨?_, by rw [ha1]; rfl⟩
        simp only [List.map_cons, List.map_append, List.mem_append, List.mem_cons,
          List.mem_map]
        exact hnd.1)
      (by simp at hlen ⊢; omega)
  obtain ⟨hd2, tn0, tn, htn0, htn, hnext, hdata⟩ := hsome2 a.node rfl
  rw [ha1] at htn0
  cases htn0
  refine ⟨d2, m2, .addr a.node, a :: cs, hrun, ?_, ?_, ?_, ?_, ?_, ?_⟩
  · rw [Seg_cons_iff]
    refine ⟨rfl, r, ?_, hseg⟩
    rw [htn]
    cases tn
    simp_all
  · simpa using hperm
  · intro hn s1 s2
    unfold SortedByX at s1 s2 ⊢
    rw [List.pairwise_cons] at s1 s2 ⊢
    refine ⟨?_, ?_⟩
    · intro c hc
      have hc1 := hperm.subset hc
      rcases List.mem_append.mp hc1 with h | h
      · exact s1.1 c h
      · rcases List.mem_cons.mp h with h | h
        · subst h
          rw [hxa, hxb]
          exact Dbl_le_of_lt hlt
        · have := s2.1 c h
          rw [hxa]
          rw [hxb] at this
          exact Dbl_le_trans (Dbl_le_of_lt hlt) this
    · have := hsorted
        ((NoNaN_congr hfr.1 _).mpr (hn.mono (fun c hc => by
          simp only [List.cons_append, List.mem_cons]
          exact Or.inr hc)))
        ((SortedByX_congr hfr.1 _).mpr s1.2)
        ((SortedByX_congr hfr.1 _).mpr (by
          unfold SortedByX
          rw [List.pairwise_cons]
          exact s2))
      exact (SortedByX_congr hfr.1 _).mp this
  · intro h
    rw [hd2, hnone h]
  · intro t h
    obtain ⟨hd1, tn0, h0, h1n⟩ := hsome t h
    refine ⟨by rw [hd2, hd1], tn0, { tn0 with next := .addr a.node }, h0, ?_, rfl, rfl⟩
    rw [hfr2.2.2.2.2 t, h1n]
    rintro (hmem | hmem)
    · apply (ht t h).1
      simp only [List.cons_append, List.map_cons, List.mem_cons]
      exact Or.inr hmem
    · apply (ht t h).1
      cases hmem
      simp
  · refine Frame.trans hfr hfr2 (fun b h => Or.inr h) ?_
    rintro b' (h | h)
    · left
      simp only [List.cons_append, List.map_cons, List.mem_cons]
      exact Or.inr h
    · left
      cases h
      simp

theorem merge_loop_take_second (k : Nat) (a b : Cell) (l1 l2 : List Cell) (m : Mem) (tail : Option Nat)
    (d nx1 nx2 : Ptr) (p1 p2 : Asciip_Point)
    (ha : m.node a.node = some ⟨.addr a.point, nx1⟩) (hb : m.node b.node = some ⟨.addr b.point, nx2⟩)
    (hp1 : m.point a.point = some p1) (hp2 : m.point b.point = some p2)
    (hlt : ¬ p1.x < p2.x) :
    MergeLoopOk k →
    Seg m (.addr a.node) (a :: l1) .null → Seg m (.addr b.node) (b :: l2) .null →
    (((a :: l1) ++ (b :: l2)).map Cell.node).Nodup →
    (∀ c ∈ (a :: l1) ++ (b :: l2), (m.point c.point).isSome = true) →
    (∀ t, tail = some t → t ∉ ((a :: l1) ++ (b :: l2)).map Cell.node ∧ (m.node t).isSome = true) →
    (a :: l1).length + (b :: l2).length ≤ k + 1 + 1 →
    MergePost m (a :: l1) (b :: l2) tail d
      (asciip_merge_list_loop (k + 1) m (.addr a.node) (.addr b.node) tail d) := by
  intro ih h1 h2 hnd hpts ht hlen
  have h1c := h1
  have h2c := h2
  rw [Seg_cons_iff] at h1c h2c
  obtain ⟨_, nx1', ha', hs1⟩ := h1c
  obtain ⟨_, nx2', hb', hs2⟩ := h2c
  rw [ha] at ha'
  rw [hb] at hb'
  have e1 : nx1' = nx1 := by
    have := congrArg Asciip_Node.next (Option.some.inj ha')
    exact this.symm
  have e2 : nx2' = nx2 := by
    have := congrArg Asciip_Node.next (Option.some.inj hb')
    exact this.symm
  rw [e1] at hs1
  rw [e2] at hs2
  have hxa : xOf m a = p1.x := xOf_eq hp1
  have hxb : xOf m b = p2.x := xOf_eq hp2
  simp only [List.cons_append, List.map_cons, List.nodup_cons, List.map_append,
    List.mem_append, List.mem_cons, List.mem_map, List.nodup_append] at hnd
  obtain ⟨d1, m1, hst, hnone, hsome, hfr⟩ :=
    merge_store_frame m tail d (.addr b.node) (fun t h => (ht t h).2)
  rw [merge_loop_step_ge k m m1 a b nx1 nx2 p1 p2 tail d d1 ha hb hp1 hp2 hlt hst]
  have hsame : ∀ c ∈ a :: l1 ++ b :: l2, m1.node c.node = m.node c.node := by
    intro c hc
    apply hfr.2.2.2.2
    intro hcontra
    exact (ht _ hcontra).1 (List.mem_map_of_mem _ hc)
  have hb1 : m1.node b.node = some ⟨.addr b.point, nx2⟩ := by
    rw [hsame b (by simp), hb]
  obtain ⟨d2, m2, r, cs, hrun, hseg, hperm, hsorted, hnone2, hsome2, hfr2⟩ :=
    ih (a :: l1) l2 m1 (.addr a.node) nx2 (some b.node) d1
      (Seg.congr (fun c hc => hsame c (by
        simp only [List.cons_append, List.mem_cons, List.mem_append]
        rcases List.mem_cons.mp hc with h | h
        · exact Or.inl h
        · exact Or.inr (Or.inl h))) h1)
      (Seg.congr (fun c hc => hsame c (by simp [hc])) hs2)
      (by
        simp only [List.cons_append, List.map_cons, List.nodup_cons, List.map_append,
          List.mem_append, List.mem_cons, List.mem_map, List.nodup_append]
        refine ⟨?_, hnd.2.1, hnd.2.2.1.2, ?_⟩
        · intro h
          exact hnd.1 (h.elim Or.inl (fun h => Or.inr (Or.inr h)))
        · exact fun x hx hx2 => hnd.2.2.2 hx (List.mem_cons_of_mem _ hx2))
      (fun c hc => by
        rw [Mem.point_congr hfr.1]
        apply hpts c
        simp only [List.cons_append, List.mem_cons, List.mem_append] at hc ⊢
        rcases hc with h | h | h
        · exact Or.inl h
        · exact Or.inr (Or.inl h)
        · exact Or.inr (Or.inr (Or.inr h)))
      (fun t h => by
        cases h
        refine ⟨?_, by rw [hb1]; rfl⟩
        simp only [List.cons_append, List.map_cons, List.map_append, List.mem_append,
          List.mem_cons, List.mem_map]
        rintro (h | h | h)
        · exact hnd.1 (Or.inr (Or.inl h.symm))
        · obtain ⟨x, hx, hxe⟩ := h
          exact hnd.2.2.2 (List.mem_map_of_mem _ hx) (by rw [hxe]; simp)
        · exact hnd.2.2.1.1 h)
      (by simp at hlen ⊢; omega)
  obtain ⟨hd2, tn0, tn, htn0, htn, hnext, hdata⟩ := hsome2 b.node rfl
  rw [hb1] at htn0
  cases htn0
  refine ⟨d2, m2, .addr b.node, b :: cs, hrun, ?_, ?_, ?_, ?_, ?_, ?_⟩
  · rw [Seg_cons_iff]
    refine ⟨rfl, r, ?_, hseg⟩
    rw [htn]
    cases tn
    simp_all
  · exact (List.Perm.cons b hperm).trans List.perm_middle.symm
  · intro hn s1 s2
    unfold SortedByX at s1 s2 ⊢
    rw [List.pairwise_cons] at s1 s2 ⊢
    have hna : xOf m a ≠ Dbl.nan := hn a (by simp)
    have hnb : xOf m b ≠ Dbl.nan := hn b (by simp)
    have hba : xOf m b ≤ xOf m a := by
      rw [hxa, hxb] at *
      exact Dbl_le_of_not_lt hna hnb hlt
    refine ⟨?_, ?_⟩
    · intro c hc
      have hc1 := hperm.subset hc
      rcases List.mem_append.mp hc1 with h | h
      · rcases List.mem_cons.mp h with h | h
        · subst h
          exact hba
        · exact Dbl_le_trans hba (s1.1 c h)
      · exact s2.1 c h
    · have := hsorted
        ((NoNaN_congr hfr.1 _).mpr (hn.mono (fun c hc => by
          simp only [List.cons_append, List.mem_cons, List.mem_append] at hc ⊢
          rcases hc with h | h | h
          · exact Or.inl h
          · exact Or.inr (Or.inl h)
          · exact Or.inr (Or.inr (Or.inr h)))))
        ((SortedByX_congr hfr.1 _).mpr (by
          unfold SortedByX
          rw [List.pairwise_cons]
          exact s1))
        ((SortedByX_congr hfr.1 _).mpr s2.2)
      exact (SortedByX_congr hfr.1 _).mp this
  · intro h
    rw [hd2, hnone h]
  · intro t h
    obtain ⟨hd1, tn0, h0, h1n⟩ := hsome t h
    refine ⟨by rw [hd2, hd1], tn0, { tn0 with next := .addr b.node }, h0, ?_, rfl, rfl⟩
    rw [hfr2.2.2.2.2 t, h1n]
    rintro (hmem | hmem)
    · apply (ht t h).1
      simp only [List.cons_append, List.map_cons, List.map_append, List.mem_append,
        List.mem_cons] at hmem ⊢
      rcases hmem with h | h | h
      · exact Or.inl h
      · exact Or.inr (Or.inl h)
      · exact Or.inr (Or.inr (Or.inr h))
    · apply (ht t h).1
      cases hmem
      simp
  · refine Frame.trans hfr hfr2 (fun b h => Or.inr h) ?_
    rintro b' (h | h)
    · left
      simp only [List.cons_append, List.map_cons, List.map_append, List.mem_append,
        List.mem_cons] at h ⊢
      rcases h with h | h | h
      · exact Or.inl h
      · exact Or.inr (Or.inl h)
      · exact Or.inr (Or.inr (Or.inr h))
    · left
      cases h
      simp

theorem merge_loop_spec : ∀ fuel : Nat, MergeLoopOk fuel := by
  intro fuel
  induction fuel with
  | zero =>
    intro l1 l2 m list1 list2 tail d h1 h2 _ _ ht hlen
    have hnil : l1 = [] ∨ l2 = [] := by
      cases l1 with
      | nil => exact Or.inl rfl
      | cons a l1 =>
        cases l2 with
        | nil => exact Or.inr rfl
        | cons b l2 => simp at hlen; omega
    exact merge_loop_exit 0 l1 l2 m list1 list2 tail d hnil h1 h2 ht
  | succ k ih =>
    intro l1 l2 m list1 list2 tail d h1 h2 hnd hpts ht hlen
    cases l1 with
    | nil => exact merge_loop_exit _ _ _ m list1 list2 tail d (Or.inl rfl) h1 h2 ht
    | cons a l1 =>
      cases l2 with
      | nil => exact merge_loop_exit _ _ _ m list1 list2 tail d (Or.inr rfl) h1 h2 ht
      | cons b l2 =>
        have h1c := h1
        have h2c := h2
        rw [Seg_cons_iff] at h1c h2c
        obtain ⟨hl1, nx1, ha, _⟩ := h1c
        obtain ⟨hl2, nx2, hb, _⟩ := h2c
        subst hl1 hl2
        obtain ⟨p1, hp1⟩ := point_of_isSome (hpts a (by simp))
        obtain ⟨p2, hp2⟩ := point_of_isSome (hpts b (by simp))
        by_cases hlt : p1.x < p2.x
        · exact merge_loop_take_first k a b l1 l2 m tail d nx1 nx2 p1 p2 ha hb hp1 hp2 hlt ih
            h1 h2 hnd hpts ht hlen
        · exact merge_loop_take_second k a b l1 l2 m tail d nx1 nx2 p1 p2 ha hb hp1 hp2 hlt ih
            h1 h2 hnd hpts ht hlen

/-! ## Merge sort -/

theorem get_node_loop_seg (error : Option Asciip_Error) (m : Mem) :
    ∀ (l1 : List Cell) (p r : Ptr), Seg m p l1 r →
      asciip_list_get_node_loop error m l1.length p = .ok (some r, error, m) := by
  intro l1
  induction l1 with
  | nil =>
    intro p r h
    rw [Seg_nil_iff] at h
    subst h
    rfl
  | cons c l1 ih =>
    intro p r h
    rw [Seg_cons_iff] at h
    obtain ⟨hp, nxt, hn, hs⟩ := h
    subst hp
    simp only [List.length_cons, asciip_list_get_node_loop, isNull, rdNode, hn]
    exact ih nxt r hs

/-- On a chain, `asciip_list_get_node` with `index` returns the node at position
`index - 1` (position `0` for `index = 0`). -/
theorem asciip_list_get_node_spec {m : Mem} {head : Ptr} {l1 l2 : List Cell} {c : Cell}
    {index : Nat} (error : Option Asciip_Error)
    (h : Seg m head (l1 ++ c :: l2) .null) (hi : index - 1 = l1.length) :
    asciip_list_get_node m head index error = .ok (.addr c.node, error, m) := by
  have hsplit := (Seg_append_iff m l1 (c :: l2) head .null).mp h
  obtain ⟨r, hl1, hr⟩ := hsplit
  have hr' := hr
  rw [Seg_cons_iff] at hr'
  obtain ⟨hrp, _⟩ := hr'
  subst hrp
  have hhead : ∃ a, head = .addr a := by
    cases l1 with
    | nil =>
      rw [Seg_nil_iff] at hl1
      exact ⟨c.node, hl1⟩
    | cons c1 l1 =>
      rw [Seg_cons_iff] at hl1
      exact ⟨c1.node, hl1.1⟩
  obtain ⟨a, ha⟩ := hhead
  unfold asciip_list_get_node
  rw [hi, get_node_loop_seg error m l1 head _ hl1, ha]
  rfl

/-- Severing the chain after the cell `c`. -/
theorem Seg_sever {m : Mem} {head nxt : Ptr} {l1 l2 : List Cell} {c : Cell}
    (h : Seg m head (l1 ++ c :: l2) .null)
    (hn : m.node c.node = some ⟨.addr c.point, nxt⟩) :
    Seg (m.setNode c.node ⟨.addr c.point, .null⟩) head (l1 ++ [c]) .null ∧
      Seg (m.setNode c.node ⟨.addr c.point, .null⟩) nxt l2 .null := by
  have hnd := Seg.nodup h
  simp only [List.map_append, List.map_cons, List.nodup_append, List.nodup_cons] at hnd
  obtain ⟨hnd1, ⟨hc2, hnd2⟩, hdisj⟩ := hnd
  obtain ⟨r, hl1, hr⟩ := (Seg_append_iff m l1 (c :: l2) head .null).mp h
  rw [Seg_cons_iff] at hr
  obtain ⟨hrp, nxt', hn', hl2⟩ := hr
  rw [hn] at hn'
  have e : nxt' = nxt := (congrArg Asciip_Node.next (Option.some.inj hn')).symm
  rw [e] at hl2
  subst hrp
  have hself := Mem.node_setNode_self m ⟨.addr c.point, .null⟩ (Mem.node_lt hn)
  constructor
  · rw [Seg_append_iff]
    refine ⟨.addr c.node, ?_, ?_⟩
    · apply Seg.congr _ hl1
      intro c1 hc1
      apply Mem.node_setNode_of_ne
      intro heq
      exact hdisj (List.mem_map_of_mem _ hc1) (by rw [← heq]; simp)
    · rw [Seg_cons_iff]
      exact ⟨rfl, .null, hself, rfl⟩
  · apply Seg.congr _ hl2
    intro c1 hc1
    apply Mem.node_setNode_of_ne
    intro heq
    exact hc2 (by rw [heq]; exact List.mem_map_of_mem _ hc1)

theorem asciip_merge_sort_null (fuel : Nat) (m : Mem) (s : Nat) (error : Option Asciip_Error) :
    asciip_merge_sort (fuel + 1) m .null s error = .ok (.null, error, m) := by
  simp [asciip_merge_sort, isNull]

theorem asciip_merge_sort_single (fuel : Nat) (m : Mem) (a : Nat) (dp : Ptr) (s : Nat)
    (error : Option Asciip_Error) (hn : m.node a = some ⟨dp, .null⟩) :
    asciip_merge_sort (fuel + 1) m (.addr a) s error = .ok (.addr a, error, m) := by
  simp [asciip_merge_sort, isNull, rdNode, hn]

theorem asciip_merge_sort_split (fuel : Nat) (m m3 m4 m5 : Mem) (a a2 ma : Nat)
    (dp dm nxm s1 s2 r : Ptr) (s : Nat) (error : Option Asciip_Error)
    (hn : m.node a = some ⟨dp, .addr a2⟩)
    (hget : asciip_list_get_node m (.addr a) (s / 2) error = .ok (.addr ma, error, m))
    (hmid : m.node ma = some ⟨dm, nxm⟩)
    (h1 : asciip_merge_sort fuel (m.setNode ma ⟨dm, .null⟩) (.addr a) (s / 2) error =
      .ok (s1, error, m3))
    (h2 : asciip_merge_sort fuel m3 nxm (s / 2) error = .ok (s2, error, m4))
    (hm : asciip_merge_list_loop fuel m4 s1 s2 none .wild = .ok (r, m5)) :
    asciip_merge_sort (fuel + 1) m (.addr a) s error = .ok (r, error, m5) := by
  simp [asciip_merge_sort, isNull, rdNode, hn, hget, hmid, h1, h2, asciip_merge_list, hm]

theorem Frame.seg {m m1 : Mem} {t : Nat → Prop} {p q : Ptr} {cs : List Cell}
    (hf : Frame m m1 t) (hcs : ∀ c ∈ cs, ¬ t c.node) (h : Seg m p cs q) : Seg m1 p cs q :=
  Seg.congr (fun c hc => hf.2.2.2.2 c.node (hcs c hc)) h

theorem Frame.points_ok {m m1 : Mem} {t : Nat → Prop} {cs : List Cell} (hf : Frame m m1 t)
    (h : ∀ c ∈ cs, (m.point c.point).isSome = true) :
    ∀ c ∈ cs, (m1.point c.point).isSome = true := by
  intro c hc
  rw [Mem.point_congr hf.1]
  exact h c hc

theorem Frame.setNode (m : Mem) (a : Nat) (n : Asciip_Node) :
    Frame m (m.setNode a n) (fun b => b = a) := by
  refine ⟨rfl, rfl, rfl, by simp [Mem.setNode], fun b hb => ?_⟩
  exact Mem.node_setNode_of_ne m n (fun h => hb h.symm)

theorem list_split_at_index {α : Type} (cs : List α) :
    ∀ k, k < cs.length → ∃ l1 c l2, cs = l1 ++ c :: l2 ∧ l1.length = k := by
  induction cs with
  | nil => intro k hk; simp at hk
  | cons x xs ih =>
    intro k hk
    cases k with
    | zero => exact ⟨[], x, xs, rfl, rfl⟩
    | succ k =>
      obtain ⟨l1, c, l2, h, hl⟩ := ih k (by simpa using hk)
      exact ⟨x :: l1, c, l2, by rw [h]; rfl, by simp [hl]⟩

theorem merge_sort_step (k : Nat) (ih : MergeSortOk k) (c c2 : Cell) (rest : List Cell)
    (m : Mem) (head : Ptr) (s : Nat) (error : Option Asciip_Error)
    (h : Seg m head (c :: c2 :: rest) .null)
    (hpts : ∀ x ∈ c :: c2 :: rest, (m.point x.point).isSome = true)
    (hs : s ≤ (c :: c2 :: rest).length) (hk : (c :: c2 :: rest).length < k + 1) :
    ∃ r m1 cs1, asciip_merge_sort (k + 1) m head s error = .ok (r, error, m1) ∧
      Seg m1 r cs1 .null ∧ cs1.Perm (c :: c2 :: rest) ∧
      (NoNaN m (c :: c2 :: rest) → SortedByX m cs1) ∧
      Frame m m1 (fun b => b ∈ (c :: c2 :: rest).map Cell.node) := by
  have hlen : (c :: c2 :: rest).length = rest.length + 2 := rfl
  rw [hlen] at hs hk
  -- the head node and its successor
  have h0 := h
  rw [Seg_cons_iff] at h0
  obtain ⟨hhead, nx, hn, hrest⟩ := h0
  rw [Seg_cons_iff] at hrest
  obtain ⟨hnx, _⟩ := hrest
  subst hhead hnx
  -- the middle node
  have hk1 : s / 2 - 1 < (c :: c2 :: rest).length := by rw [hlen]; omega
  obtain ⟨l1, mid, l2, hsplit, hl1⟩ := list_split_at_index (c :: c2 :: rest) _ hk1
  have hl2 : l1.length + 1 + l2.length = rest.length + 2 := by
    have := congrArg List.length hsplit
    simp only [List.length_cons, List.length_append] at this
    omega
  have hnd := Seg.nodup h
  rw [hsplit] at h hpts hnd
  have hget := asciip_list_get_node_spec error h hl1.symm
  obtain ⟨rm, hseg1, hsegm⟩ := (Seg_append_iff m l1 (mid :: l2) _ .null).mp h
  rw [Seg_cons_iff] at hsegm
  obtain ⟨_, nxm, hmid, _⟩ := hsegm
  obtain ⟨hsv1, hsv2⟩ := Seg_sever h hmid
  have hf0 := Frame.setNode m mid.node ⟨.addr mid.point, .null⟩
  simp only [List.map_append, List.map_cons, List.nodup_append, List.nodup_cons] at hnd
  obtain ⟨hnd1, ⟨hmid2, hnd2⟩, hdisj⟩ := hnd
  have hdisj2 : ∀ x ∈ l2, x.node ∉ (l1 ++ [mid]).map Cell.node := by
    intro x hx hmem
    simp only [List.map_append, List.map_cons, List.map_nil, List.mem_append,
      List.mem_singleton] at hmem
    rcases hmem with hm | hm
    · exact hdisj hm (List.mem_cons_of_mem _ (List.mem_map_of_mem _ hx))
    · exact hmid2 (by rw [← hm]; exact List.mem_map_of_mem _ hx)
  -- first half
  obtain ⟨r1, m3, cs1, hrun1, hsg1, hperm1, hsort1, hf1⟩ :=
    ih (l1 ++ [mid]) _ (.addr c.node) (s / 2) error hsv1
      (Frame.points_ok hf0 (fun x hx => hpts x (by
        simp only [List.mem_append, List.mem_singleton, List.mem_cons, List.not_mem_nil,
          or_false] at hx ⊢
        rcases hx with hx | hx
        · exact Or.inl hx
        · exact Or.inr (Or.inl hx))))
      (by simp only [List.length_append, List.length_singleton]; omega)
      (by simp only [List.length_append, List.length_singleton]; omega)
  -- second half
  obtain ⟨r2, m4, cs2, hrun2, hsg2, hperm2, hsort2, hf2⟩ :=
    ih l2 m3 nxm (s / 2) error (Frame.seg hf1 hdisj2 hsv2)
      (Frame.points_ok hf1 (Frame.points_ok hf0 (fun x hx => hpts x (by
        simp only [List.mem_append, List.mem_cons]
        exact Or.inr (Or.inr hx)))))
      (by omega) (by omega)
  have hsg1' : Seg m4 r1 cs1 .null := by
    apply Frame.seg hf2 _ hsg1
    intro x hx hmem
    obtain ⟨y, hy, hyx⟩ := List.mem_map.mp hmem
    exact hdisj2 y hy (by rw [hyx]; exact List.mem_map_of_mem _ (hperm1.subset hx))
  have hp3 : m3.points = m.points := hf1.1.trans hf0.1
  have hp4 : m4.points = m.points := hf2.1.trans hp3
  have hpermall : (cs1 ++ cs2).Perm (l1 ++ mid :: l2) := by
    have := List.Perm.append hperm1 hperm2
    simpa using this
  -- merge
  obtain ⟨d1, m5, r, cs', hrun, hsg, hperm, hsorted, hnone, _, hf3⟩ :=
    merge_loop_spec k cs1 cs2 m4 r1 r2 none .wild hsg1' hsg2
      (by
        have hp := (hpermall.map Cell.node).nodup_iff
        rw [hp]
        simp only [List.map_append, List.map_cons, List.nodup_append, List.nodup_cons]
        exact ⟨hnd1, ⟨hmid2, hnd2⟩, hdisj⟩)
      (by
        intro x hx
        rw [Mem.point_congr hp4]
        exact hpts x (hpermall.subset hx))
      (fun t ht => by cases ht)
      (by
        have := hpermall.length_eq
        simp only [List.length_append, List.length_cons] at this
        omega)
  have hd1 := hnone rfl
  subst hd1
  refine ⟨d1, m5, cs', ?_, hsg, ?_, ?_, ?_⟩
  · exact asciip_merge_sort_split k m m3 m4 m5 c.node c2.node mid.node (.addr c.point)
      (.addr mid.point) nxm r1 r2 d1 s error hn hget hmid hrun1 hrun2 hrun
  · rw [hsplit]
    exact hperm.trans hpermall
  · intro hn
    rw [hsplit] at hn
    have hn1 : NoNaN m (l1 ++ [mid]) := hn.mono (fun x hx => by
      simp only [List.mem_append, List.mem_cons, List.not_mem_nil, or_false] at hx ⊢
      rcases hx with hx | hx
      · exact Or.inl hx
      · exact Or.inr (Or.inl hx))
    have hn2 : NoNaN m l2 := hn.mono (fun x hx => by
      simp only [List.mem_append, List.mem_cons]
      exact Or.inr (Or.inr hx))
    have := hsorted ((NoNaN_congr hp4 _).mpr (hn.mono (fun x hx => hpermall.subset hx)))
      ((SortedByX_congr (hf2.1.trans hf1.1) _).mpr (hsort1 ((NoNaN_congr hf0.1 _).mpr hn1)))
      ((SortedByX_congr hf2.1 _).mpr (hsort2 ((NoNaN_congr hp3 _).mpr hn2)))
    exact (SortedByX_congr hp4 _).mp this
  · rw [hsplit]
    have hmem1 : ∀ b, b ∈ (cs1 ++ cs2).map Cell.node → b ∈ (l1 ++ mid :: l2).map Cell.node :=
      fun b hb => ((hpermall.map Cell.node).subset hb)
    refine Frame.trans (Frame.trans (Frame.trans hf0 hf1 ?_ ?_) hf2 (fun b hb => hb) ?_) hf3
      (fun b hb => hb) ?_
    · intro b hb
      rw [hb]
      simp
    · intro b hb
      simp only [List.map_append, List.map_cons, List.map_nil, List.mem_append,
        List.mem_singleton, List.mem_cons, List.not_mem_nil, or_false] at hb ⊢
      rcases hb with hb | hb
      · exact Or.inl hb
      · exact Or.inr (Or.inl hb)
    · intro b hb
      simp only [List.map_append, List.map_cons, List.mem_append, List.mem_cons]
      exact Or.inr (Or.inr hb)
    · rintro b (hb | hb)
      · exact hmem1 b hb
      · cases hb

theorem merge_sort_spec : ∀ fuel : Nat, MergeSortOk fuel := by
  intro fuel
  induction fuel with
  | zero =>
    intro cs m head s error _ _ _ hk
    omega
  | succ k ih =>
    intro cs m head s error h hpts hs hk
    cases cs with
    | nil =>
      rw [Seg_nil_iff] at h
      subst h
      exact ⟨.null, m, [], asciip_merge_sort_null k m s error, rfl, List.Perm.refl _,
        fun _ => List.Pairwise.nil, Frame.refl m _⟩
    | cons c cs =>
      cases cs with
      | nil =>
        have h0 := h
        rw [Seg_cons_iff] at h0
        obtain ⟨hhead, nx, hn, hnil⟩ := h0
        rw [Seg_nil_iff] at hnil
        subst hhead hnil
        exact ⟨.addr c.node, m, [c], asciip_merge_sort_single k m c.node _ s error hn, h,
          List.Perm.refl _, fun _ => List.pairwise_singleton _ _, Frame.refl m _⟩
      | cons c2 rest => exact merge_sort_step k ih c c2 rest m head s error h hpts hs hk

/-! ## Sorting a list (C1) -/

theorem Seg.node_some {m : Mem} {cs : List Cell} :
    ∀ {p q : Ptr}, Seg m p cs q → ∀ c ∈ cs, ∃ nx, m.node c.node = some ⟨.addr c.point, nx⟩ := by
  induction cs with
  | nil => intro p q _ c hc; cases hc
  | cons c0 cs ih =>
    intro p q h c hc
    rw [Seg_cons_iff] at h
    obtain ⟨_, nxt, hn, hs⟩ := h
    rcases List.mem_cons.mp hc with hc | hc
    · subst hc
      exact ⟨nxt, hn⟩
    · exact ih hs c hc

/-- A null-terminated chain has no more nodes than the node heap has cells. -/
theorem Seg.length_le {m : Mem} {cs : List Cell} {p : Ptr} (h : Seg m p cs .null) :
    cs.length ≤ m.nodes.length := by
  have hnd := Seg.nodup h
  have hsub : cs.map Cell.node ⊆ List.range m.nodes.length := by
    intro a ha
    obtain ⟨c, hc, hca⟩ := List.mem_map.mp ha
    obtain ⟨nx, hn⟩ := Seg.node_some h c hc
    rw [List.mem_range, ← hca]
    exact Mem.node_lt hn
  have := (List.subperm_of_subset hnd hsub).length_le
  simpa using this

/-- C1 (amended): on every list whose chain from `head` is finite and null-terminated
with traversal `cs`, whose `size` is the number of nodes, whose nodes carry allocated
points and which holds at least one point, `asciip_list_sort` returns `0`; afterwards
the chain from `head` is null-terminated, its traversal is a permutation of the
traversal before (same nodes, each still carrying its point), and neither the points
nor `size` have changed; no node was allocated and nothing was printed. When no `x`
value of the list is NaN, the new traversal is non-decreasing in `x`. -/
theorem asciip_list_sort_sorted_unless_nan (m : Mem) (l : Asciip_List) (cs : List Cell)
    (error : Option Asciip_Error) (hchain : Chain m l.head cs) (hsize : l.size = cs.length)
    (hpoints : ∀ c ∈ cs, (m.point c.point).isSome = true) (hN : 1 ≤ cs.length) :
    ∃ l1 m1 cs1, asciip_list_sort m (some l) error = .ok (0, some l1, error, m1) ∧
      Chain m1 l1.head cs1 ∧ cs1.Perm cs ∧ (NoNaN m cs → SortedByX m1 cs1) ∧
      m1.points = m.points ∧ l1.size = l.size ∧
      m1.nodes.length = m.nodes.length ∧ m1.avail = m.avail ∧ m1.out = m.out := by
  have hlen := Seg.length_le hchain
  obtain ⟨r, m1, cs1, hrun, hseg, hperm, hsorted, hf⟩ :=
    merge_sort_spec (m.nodes.length + 1) cs m l.head l.size error hchain hpoints
      (le_of_eq hsize) (by omega)
  have hne : ∃ a, r = .addr a := by
    cases cs1 with
    | nil =>
      have := hperm.length_eq
      simp at this
      omega
    | cons c cs1 =>
      rw [Seg_cons_iff] at hseg
      exact ⟨c.node, hseg.1⟩
  obtain ⟨a, ha⟩ := hne
  refine ⟨{ l with head := r }, m1, cs1, ?_, hseg, hperm,
    fun hn => (SortedByX_congr hf.1 _).mpr (hsorted hn),
    hf.1, rfl, hf.2.2.2.1, hf.2.1, hf.2.2.1⟩
  simp [asciip_list_sort, hrun, ha, isNull]

theorem asciip_list_sort_sorted_unless_nan_witness :
    WellFormed exMem exList exCells ∧ 1 ≤ exCells.length ∧ NoNaN exMem exCells ∧
      ∃ l1 m1 cs1, asciip_list_sort exMem (some exList) none = .ok (0, some l1, none, m1) ∧
        Chain m1 l1.head cs1 ∧ cs1.Perm exCells ∧ SortedByX m1 cs1 ∧
        m1.points = exMem.points ∧ l1.size = exList.size ∧
        m1.nodes.length = exMem.nodes.length ∧ m1.avail = exMem.avail ∧
        m1.out = exMem.out := by
  obtain ⟨l1, m1, cs1, hrun, hchain, hperm, hsorted, hrest⟩ :=
    asciip_list_sort_sorted_unless_nan exMem exList exCells none (by decide) (by decide)
      (by decide) (by decide)
  exact ⟨by decide, by decide, by decide, l1, m1, cs1, hrun, hchain, hperm,
    hsorted (by decide), hrest⟩

/-- C1, counterexample: the well-formed list of four points with `x` values `5`, NaN,
`1`, `9` (in this order) is sorted with return value `0`, and afterwards the chain from
`head` visits the nodes `2`, `3`, `1`, `0`, whose `x` values are `1`, `9`, NaN, `5`:
`9` comes before `5`, so the traversal is not non-decreasing in `x`, and the chain has
no other traversal. -/
theorem asciip_list_sort_nan_not_sorted :
    WellFormed exNanMem exNanList exNanCells ∧ 1 ≤ exNanCells.length ∧
      asciip_list_sort exNanMem (some exNanList) none =
        .ok (0, some { exNanList with head := .addr 2 }, none, exNanSortedMem) ∧
      Chain exNanSortedMem (.addr 2) exNanSortedCells ∧
      exNanSortedCells.map (xOf exNanSortedMem) = [1, 9, Dbl.nan, 5] ∧
      ∀ cs1, Chain exNanSortedMem (.addr 2) cs1 → ¬ SortedByX exNanSortedMem cs1 := by
  refine ⟨by decide, by decide, by decide, by decide, by decide, fun cs1 h => ?_⟩
  have hcs : cs1 = exNanSortedCells := Seg.functional h (by decide)
  subst hcs
  unfold SortedByX
  decide

/-! ## Indexed access, insertion, removal and construction (C2 to C10) -/

/-- What `asciip_list_get` returns for an index in range: the point carried by the node
at traversal position `index - 1` (position `0` for index `0`). -/
theorem asciip_list_get_in_range (m : Mem) (l : Asciip_List) (cs l1 l2 : List Cell) (c : Cell)
    (index : Nat) (res : Ptr) (error : Option Asciip_Error)
    (hchain : Chain m l.head cs) (hsize : l.size = cs.length) (hi : index < cs.length)
    (hsplit : cs = l1 ++ c :: l2) (hpos : l1.length = index - 1) :
    asciip_list_get m (some l) index res error = .ok (.addr c.point, error, m) := by
  have hcond : ¬ ((index : Int) > (l.size : Int) - 1) := by
    rw [hsize]
    omega
  unfold Chain at hchain
  rw [hsplit] at hchain
  have hget := asciip_list_get_node_spec error hchain hpos.symm
  obtain ⟨nx, hn⟩ := Seg.node_some hchain c (by simp)
  simp [asciip_list_get, hcond, hget, isNull, rdNode, hn]

/-- C2 (code bug): on the well-formed list whose traversal is the points at addresses
`0, 1, 2`, `asciip_list_get` with index `1` returns the point at address `0` (the one at
traversal position `0`) and with index `2` the point at address `1`, instead of the
points at positions `1` and `2`. -/
theorem asciip_list_get_off_by_one :
    WellFormed exMem exList exCells ∧
      asciip_list_get exMem (some exList) 0 .null none = .ok (.addr 0, none, exMem) ∧
      asciip_list_get exMem (some exList) 1 .null none = .ok (.addr 0, none, exMem) ∧
      asciip_list_get exMem (some exList) 2 .null none = .ok (.addr 1, none, exMem) := by
  decide

/-- C15 (code bug): whatever the memory, the point and the tracker, `asciip_list_add` on
the empty list (`size == 0`, `head` and `tail` absent) either reports that no node could
be allocated (returning `-1`) or dereferences the absent `tail`: it never returns `0`
and never sets `head` or `tail`. -/
theorem asciip_list_add_empty (m : Mem) (p : Nat) (error : Option Asciip_Error) :
    asciip_list_add m (some emptyList) (.addr p) error =
      if m.avail = 0 then
        .ok (-1, some emptyList,
          (report_error error ASCIIP_ERR_MEM
            "asciip_list_add: Could not create new node for list." m).1,
          (report_error error ASCIIP_ERR_MEM
            "asciip_list_add: Could not create new node for list." m).2)
      else .error .null_deref := by
  by_cases h : m.avail = 0
  · simp [asciip_list_add, isNull, malloc_node, h]
  · simp [asciip_list_add, isNull, malloc_node, h, rdNode, emptyList]

/-- C3 (code bug): the list created empty by `asciip_list_init(NULL, ...)` has an absent
`tail`, and the first `asciip_list_add` on it dereferences that absent `tail`
(`list->tail->next = nodep`) instead of returning `0`. -/
theorem asciip_list_add_after_init_null_deref :
    asciip_list_init exMem .null (some none) none =
        .ok (some emptyList, some (some emptyList), none, { exMem with avail := 7 }) ∧
      asciip_list_add { exMem with avail := 7 } (some emptyList) (.addr 0) none =
        .error .null_deref := by
  decide

/-- C4 (code bug): on the well-formed list whose traversal is the points at addresses
`0, 1, 2`, `asciip_list_remove` with index `2` removes and returns the point at
position `1` (leaving the traversal `0, 2`), and with index `1` it stores through the
uninitialised local `prev_nodep`. -/
theorem asciip_list_remove_off_by_one :
    WellFormed exMem exList exCells ∧
      asciip_list_remove exMem (some exList) 2 none =
        .ok (.addr 1, some { size := 2, head := .addr 0, tail := .addr 2 }, none,
          { exMem with nodes := [some ⟨.addr 0, .addr 2⟩, none, some ⟨.addr 2, .null⟩] }) ∧
      Chain { exMem with nodes := [some ⟨.addr 0, .addr 2⟩, none, some ⟨.addr 2, .null⟩] }
        (.addr 0) [⟨0, 0⟩, ⟨2, 2⟩] ∧
      asciip_list_remove exMem (some exList) 1 none = .error .wild_use := by
  decide

/-- C5: for every list structure of size `S` (the empty one included), every index
`≥ S`, every memory and tracker, `asciip_list_get` and `asciip_list_remove` return
`NULL`, print one diagnostic line carrying code `0x2`, store code `0x2` in the tracker
when one is supplied, and leave the list structure and both heaps unchanged. -/
theorem asciip_list_get_remove_index_out_of_range (m : Mem) (l : Asciip_List) (index : Nat)
    (res : Ptr) (error : Option Asciip_Error) (hidx : l.size ≤ index) :
    (∃ e1 m1 msg, asciip_list_get m (some l) index res error = .ok (.null, e1, m1) ∧
        m1.nodes = m.nodes ∧ m1.points = m.points ∧ m1.avail = m.avail ∧
        m1.out = m.out ++ [diagnostic ASCIIP_ERR_INDEX msg] ∧
        (error = none → e1 = none) ∧
        (∀ e0, error = some e0 → ∃ e, e1 = some e ∧ e.code = ASCIIP_ERR_INDEX)) ∧
      (∃ e1 m1 msg, asciip_list_remove m (some l) index error = .ok (.null, some l, e1, m1) ∧
        m1.nodes = m.nodes ∧ m1.points = m.points ∧ m1.avail = m.avail ∧
        m1.out = m.out ++ [diagnostic ASCIIP_ERR_INDEX msg] ∧
        (error = none → e1 = none) ∧
        (∀ e0, error = some e0 → ∃ e, e1 = some e ∧ e.code = ASCIIP_ERR_INDEX)) := by
  have hcond : (index : Int) > (l.size : Int) - 1 := by omega
  constructor
  · refine ⟨(report_error error ASCIIP_ERR_INDEX
        "asciip_list_get: Index was not in the bounds of the list." m).1,
      (report_error error ASCIIP_ERR_INDEX
        "asciip_list_get: Index was not in the bounds of the list." m).2,
      "asciip_list_get: Index was not in the bounds of the list.", ?_, ?_⟩
    · simp only [asciip_list_get, hcond, if_true]
    · cases error <;> simp [report_error, ASCIIP_ERR_INDEX]
  · refine ⟨(report_error error ASCIIP_ERR_INDEX
        "asciip_list_remove: Index was not in the bounds of the list." m).1,
      (report_error error ASCIIP_ERR_INDEX
        "asciip_list_remove: Index was not in the bounds of the list." m).2,
      "asciip_list_remove: Index was not in the bounds of the list.", ?_, ?_⟩
    · simp only [asciip_list_remove, hcond, if_true]
    · cases error <;> simp [report_error, ASCIIP_ERR_INDEX]

theorem asciip_list_get_remove_index_out_of_range_witness :
    emptyList.size ≤ 0 ∧
      (∃ e1 m1 msg, asciip_list_get exMem (some emptyList) 0 .null (some ⟨0, []⟩) =
          .ok (.null, e1, m1) ∧
        m1.nodes = exMem.nodes ∧ m1.points = exMem.points ∧ m1.avail = exMem.avail ∧
        m1.out = exMem.out ++ [diagnostic ASCIIP_ERR_INDEX msg] ∧
        ((some ⟨0, []⟩ : Option Asciip_Error) = none → e1 = none) ∧
        (∀ e0, (some ⟨0, []⟩ : Option Asciip_Error) = some e0 →
          ∃ e, e1 = some e ∧ e.code = ASCIIP_ERR_INDEX)) ∧
      (∃ e1 m1 msg, asciip_list_remove exMem (some emptyList) 0 (some ⟨0, []⟩) =
          .ok (.null, some emptyList, e1, m1) ∧
        m1.nodes = exMem.nodes ∧ m1.points = exMem.points ∧ m1.avail = exMem.avail ∧
        m1.out = exMem.out ++ [diagnostic ASCIIP_ERR_INDEX msg] ∧
        ((some ⟨0, []⟩ : Option Asciip_Error) = none → e1 = none) ∧
        (∀ e0, (some ⟨0, []⟩ : Option Asciip_Error) = some e0 →
          ∃ e, e1 = some e ∧ e.code = ASCIIP_ERR_INDEX)) :=
  ⟨by decide, asciip_list_get_remove_index_out_of_range exMem emptyList 0 .null
    (some ⟨0, []⟩) (by decide)⟩

/-- C6 (code bug): on the well-formed list of the points `(3,0)`, `(1,0)`, `(2,0)`,
`asciip_list_sort` returns `0` and leaves the traversal with `x = 1, 2, 3` and
`size = 3`, but `asciip_list_get` then returns the point with `x = 1` for index `0`
and for index `1`, and the point with `x = 2` for index `2` (the claim expects
`1, 2, 3`). -/
theorem asciip_list_sort_then_get_off_by_one :
    WellFormed exMem exList exCells ∧
      asciip_list_sort exMem (some exList) none =
        .ok (0, some { size := 3, head := .addr 1, tail := .addr 2 }, none,
          { exMem with nodes := [some ⟨.addr 0, .null⟩, some ⟨.addr 1, .addr 2⟩,
              some ⟨.addr 2, .addr 0⟩] }) ∧
      Chain { exMem with nodes := [some ⟨.addr 0, .null⟩, some ⟨.addr 1, .addr 2⟩,
          some ⟨.addr 2, .addr 0⟩] } (.addr 1) [⟨1, 1⟩, ⟨2, 2⟩, ⟨0, 0⟩] ∧
      asciip_list_get { exMem with nodes := [some ⟨.addr 0, .null⟩, some ⟨.addr 1, .addr 2⟩,
          some ⟨.addr 2, .addr 0⟩] } (some { size := 3, head := .addr 1, tail := .addr 2 })
          0 .null none =
        .ok (.addr 1, none, { exMem with nodes := [some ⟨.addr 0, .null⟩,
          some ⟨.addr 1, .addr 2⟩, some ⟨.addr 2, .addr 0⟩] }) ∧
      asciip_list_get { exMem with nodes := [some ⟨.addr 0, .null⟩, some ⟨.addr 1, .addr 2⟩,
          some ⟨.addr 2, .addr 0⟩] } (some { size := 3, head := .addr 1, tail := .addr 2 })
          1 .null none =
        .ok (.addr 1, none, { exMem with nodes := [some ⟨.addr 0, .null⟩,
          some ⟨.addr 1, .addr 2⟩, some ⟨.addr 2, .addr 0⟩] }) ∧
      asciip_list_get { exMem with nodes := [some ⟨.addr 0, .null⟩, some ⟨.addr 1, .addr 2⟩,
          some ⟨.addr 2, .addr 0⟩] } (some { size := 3, head := .addr 1, tail := .addr 2 })
          2 .null none =
        .ok (.addr 2, none, { exMem with nodes := [some ⟨.addr 0, .null⟩,
          some ⟨.addr 1, .addr 2⟩, some ⟨.addr 2, .addr 0⟩] }) ∧
      exMem.point 1 = some ⟨1, 0⟩ ∧ exMem.point 2 = some ⟨2, 0⟩ ∧
      exMem.point 0 = some ⟨3, 0⟩ := by
  decide

/-- C7 (code bug): for every memory and tracker, `asciip_list_sort` on the empty list
(`size == 0`, `head` and `tail` absent) returns `-1`, printing nothing and leaving the
list, the tracker and the memory unchanged. -/
theorem asciip_list_sort_empty_returns_error (m : Mem) (error : Option Asciip_Error) :
    asciip_list_sort m (some emptyList) error = .ok (-1, some emptyList, error, m) := by
  simp [asciip_list_sort, emptyList, asciip_merge_sort, isNull]

/-- Sorting a well-formed one-element list returns `0` and changes nothing. -/
theorem asciip_list_sort_singleton (m : Mem) (l : Asciip_List) (c : Cell)
    (error : Option Asciip_Error) (hwf : WellFormed m l [c]) :
    asciip_list_sort m (some l) error = .ok (0, some l, error, m) := by
  have h := hwf.chain
  unfold Chain at h
  rw [Seg_cons_iff] at h
  obtain ⟨hhead, nx, hn, hnil⟩ := h
  rw [Seg_nil_iff] at hnil
  subst hnil
  have hl : ({ l with head := Ptr.addr c.node } : Asciip_List) = l := by
    cases l
    simp_all
  simp [asciip_list_sort, hhead, asciip_merge_sort, isNull, rdNode, hn, hl]

/-- C8: whenever `asciip_list_remove` returns a point on a list of size `S` (a
`uint16_t`), the list structure handed back has size `S - 1` and the point heap (in
particular the returned point) is unchanged. -/
theorem asciip_list_remove_size_and_point (m : Mem) (l : Asciip_List) (index : Nat)
    (error : Option Asciip_Error) (p : Nat) (l1 : Option Asciip_List)
    (e1 : Option Asciip_Error) (m1 : Mem) (hsz : l.size < 65536)
    (h : asciip_list_remove m (some l) index error = .ok (.addr p, l1, e1, m1)) :
    (∃ l2, l1 = some l2 ∧ l2.size + 1 = l.size) ∧ m1.points = m.points ∧
      m1.point p = m.point p := by
  unfold asciip_list_remove at h
  simp only at h
  split at h
  · simp at h
  · rename_i hcond
    have hpos : 1 ≤ l.size := by omega
    have hdec : (l.size + 65535) % 65536 + 1 = l.size := by omega
    split at h
    · simp at h
    · rename_i prev nodep hloop
      split at h
      · simp at h
      · rename_i a nd hrd
        split at h
        · simp at h
        · rename_i l2 m2 hrel
          split at h
          · simp at h
          · rename_i a1 nd1 hrd1
            simp only [Except.ok.injEq, Prod.mk.injEq] at h
            obtain ⟨_, hl1, _, hm1⟩ := h
            have hl2 : l2.size = (l.size + 65535) % 65536 ∧ m2.points = m.points := by
              split at hrel
              · simp only [Except.ok.injEq, Prod.mk.injEq] at hrel
                obtain ⟨h1, h2⟩ := hrel
                subst h1 h2
                exact ⟨rfl, rfl⟩
              · split at hrel
                · simp at hrel
                · simp only [Except.ok.injEq, Prod.mk.injEq] at hrel
                  obtain ⟨h1, h2⟩ := hrel
                  subst h1 h2
                  exact ⟨rfl, rfl⟩
            have hpts : m1.points = m.points := by
              rw [← hm1]
              exact hl2.2
            refine ⟨⟨l2, hl1.symm, by rw [hl2.1]; exact hdec⟩, hpts, Mem.point_congr hpts p⟩

theorem asciip_list_remove_size_and_point_witness :
    exList.size < 65536 ∧
      asciip_list_remove exMem (some exList) 0 none =
        .ok (.addr 0, some { size := 2, head := .addr 1, tail := .addr 2 }, none,
          { exMem with nodes := [none, some ⟨.addr 1, .addr 2⟩, some ⟨.addr 2, .null⟩] }) ∧
      ((∃ l2, some ({ size := 2, head := .addr 1, tail := .addr 2 } : Asciip_List) = some l2 ∧
          l2.size + 1 = exList.size) ∧
        ({ exMem with nodes := [none, some ⟨.addr 1, .addr 2⟩, some ⟨.addr 2, .null⟩] } :
          Mem).points = exMem.points ∧
        ({ exMem with nodes := [none, some ⟨.addr 1, .addr 2⟩, some ⟨.addr 2, .null⟩] } :
          Mem).point 0 = exMem.point 0) :=
  ⟨by decide, by decide,
    asciip_list_remove_size_and_point exMem exList 0 none 0 _ none _ (by decide) (by decide)⟩

/-- C9: when the list structure can be allocated, `asciip_list_init` called with no
initial point and a result slot returns a list, also stored in the slot, with
`size == 0` and `head` and `tail` absent; nothing is reported. -/
theorem asciip_list_init_no_point (m : Mem) (slot : Option Asciip_List)
    (error : Option Asciip_Error) (hmem : 0 < m.avail) :
    asciip_list_init m .null (some slot) error =
      .ok (some { size := 0, head := .null, tail := .null },
        some (some { size := 0, head := .null, tail := .null }), error,
        { m with avail := m.avail - 1 }) := by
  have h : m.avail ≠ 0 := by omega
  simp [asciip_list_init, malloc_list, h, isNull]

theorem asciip_list_init_no_point_witness :
    0 < exMem.avail ∧
      asciip_list_init exMem .null (some none) none =
        .ok (some { size := 0, head := .null, tail := .null },
          some (some { size := 0, head := .null, tail := .null }), none,
          { exMem with avail := exMem.avail - 1 }) :=
  ⟨by decide, asciip_list_init_no_point exMem none none (by decide)⟩

/-- C10: when the list structure and a node can be allocated, `asciip_list_init` called
with a point `p` and a result slot returns a list, also stored in the slot, with
`size == 1` whose `head` and `tail` refer to the same, freshly allocated node, and that
node carries `p`; nothing is reported. -/
theorem asciip_list_init_one_point (m : Mem) (p : Nat) (slot : Option Asciip_List)
    (error : Option Asciip_Error) (hmem : 2 ≤ m.avail) :
    ∃ (a : Nat) (m1 : Mem) (nd : Asciip_Node),
      asciip_list_init m (.addr p) (some slot) error =
        .ok (some { size := 1, head := .addr a, tail := .addr a },
          some (some { size := 1, head := .addr a, tail := .addr a }), error, m1) ∧
      m.node a = none ∧ m1.node a = some nd ∧ nd.data = .addr p ∧
      m1.points = m.points := by
  have h : m.avail ≠ 0 := by omega
  have h1 : m.avail - 1 ≠ 0 := by omega
  refine ⟨m.nodes.length,
    ({ m with nodes := m.nodes ++ [some ⟨.wild, .wild⟩], avail := m.avail - 1 - 1 } :
      Mem).setNode m.nodes.length ⟨.addr p, .wild⟩,
    ⟨.addr p, .wild⟩, ?_, ?_, ?_, rfl, ?_⟩
  · simp [asciip_list_init, malloc_list, h, isNull, malloc_node, h1]
  · unfold Mem.node
    simp [List.getD_eq_getElem?_getD]
  · apply Mem.node_setNode_self
    simp
  · rfl

theorem asciip_list_init_one_point_witness :
    2 ≤ exMem.avail ∧
      ∃ (a : Nat) (m1 : Mem) (nd : Asciip_Node),
        asciip_list_init exMem (.addr 1) (some none) none =
          .ok (some { size := 1, head := .addr a, tail := .addr a },
            some (some { size := 1, head := .addr a, tail := .addr a }), none, m1) ∧
        exMem.node a = none ∧ m1.node a = some nd ∧ nd.data = .addr 1 ∧
        m1.points = exMem.points :=
  ⟨by decide, asciip_list_init_one_point exMem 1 none none (by decide)⟩

/-! ## Absent arguments, teardown and diagnostics (C11 to C14) -/

/-- C11: for every memory, every initial point argument and every tracker argument,
`asciip_list_init` called with an absent result slot returns no list, prints one
diagnostic line carrying code `0x0` (NullPointer), stores code `0x0` and the message in
the tracker when one is supplied, and changes nothing else. -/
theorem asciip_list_init_absent_slot (m : Mem) (init_point : Ptr)
    (error : Option Asciip_Error) :
    asciip_list_init m init_point none error =
      .ok (none, none,
        error.map (fun _ =>
          { code := ASCIIP_ERR_NULL_PTR,
            message := strncpy
              "asciip_list_init: Result pointer was NULL, cannot store result.\n".data
              MAX_ERROR_MESSAGE_LEN }),
        { m with out := m.out ++ [diagnostic ASCIIP_ERR_NULL_PTR
            "asciip_list_init: Result pointer was NULL, cannot store result.\n"] }) := by
  cases error <;> simp [asciip_list_init, report_error, ASCIIP_ERR_NULL_PTR]

/-- C12: for every memory and tracker, `asciip_list_add` with an absent list (whatever
the point) or with a list and an absent point returns `-1`, and `asciip_list_get`,
`asciip_list_remove` and `asciip_list_sort` with an absent list return `NULL`, `NULL`
and `-1`; each prints one diagnostic line carrying code `0x0` (NullPointer) and stores
code `0x0` in the tracker when one is supplied; the heaps and the list structure that
was passed are unchanged. -/
theorem asciip_list_absent_arguments (m : Mem) (l : Asciip_List) (point result : Ptr)
    (index : Nat) (error : Option Asciip_Error) :
    asciip_list_add m none point error =
        .ok (-1, none,
          error.map (fun _ =>
            { code := ASCIIP_ERR_NULL_PTR,
              message := strncpy "asciip_list_add: One of the parameters were NULL.".data
                MAX_ERROR_MESSAGE_LEN }),
          { m with out := m.out ++ [diagnostic ASCIIP_ERR_NULL_PTR
              "asciip_list_add: One of the parameters were NULL."] }) ∧
      asciip_list_add m (some l) .null error =
        .ok (-1, some l,
          error.map (fun _ =>
            { code := ASCIIP_ERR_NULL_PTR,
              message := strncpy "asciip_list_add: One of the parameters were NULL.".data
                MAX_ERROR_MESSAGE_LEN }),
          { m with out := m.out ++ [diagnostic ASCIIP_ERR_NULL_PTR
              "asciip_list_add: One of the parameters were NULL."] }) ∧
      asciip_list_get m none index result error =
        .ok (.null,
          error.map (fun _ =>
            { code := ASCIIP_ERR_NULL_PTR,
              message := strncpy "asciip_list_get: List was NULL, cannot find index.\n".data
                MAX_ERROR_MESSAGE_LEN }),
          { m with out := m.out ++ [diagnostic ASCIIP_ERR_NULL_PTR
              "asciip_list_get: List was NULL, cannot find index.\n"] }) ∧
      asciip_list_remove m none index error =
        .ok (.null, none,
          error.map (fun _ =>
            { code := ASCIIP_ERR_NULL_PTR,
              message := strncpy
                "asciip_list_remove: list was NULL, cannot operate on NULL list.".data
                MAX_ERROR_MESSAGE_LEN }),
          { m with out := m.out ++ [diagnostic ASCIIP_ERR_NULL_PTR
              "asciip_list_remove: list was NULL, cannot operate on NULL list."] }) ∧
      asciip_list_sort m none error =
        .ok (-1, none,
          error.map (fun _ =>
            { code := ASCIIP_ERR_NULL_PTR,
              message := strncpy "asciip_list_sort: List was NULL, cannot sort.\n".data
                MAX_ERROR_MESSAGE_LEN }),
          { m with out := m.out ++ [diagnostic ASCIIP_ERR_NULL_PTR
              "asciip_list_sort: List was NULL, cannot sort.\n"] }) := by
  cases error <;>
    simp [asciip_list_add, asciip_list_get, asciip_list_remove, asciip_list_sort, report_error,
      isNull, ASCIIP_ERR_NULL_PTR]

/-- On a list structure of size at least `2`, `asciip_list_destroy` leaves its loop at
once (`0 >= size - 1` is false): it returns `0` and destroys nothing. -/
theorem asciip_list_destroy_size_ge_two (m : Mem) (l : Asciip_List)
    (error : Option Asciip_Error) (h : 2 ≤ l.size) :
    asciip_list_destroy m (some l) error = .ok (0, error, m) := by
  have hc : ¬ ((0 : Nat) : Int) ≥ (l.size : Int) - 1 := by omega
  show asciip_list_destroy_loop l (256 + 1) m 0 error = _
  rw [asciip_list_destroy_loop]
  simp only [hc, if_false]

/-- C13 (code bug): on the well-formed list of three points `asciip_list_destroy`
returns `0` with the memory unchanged (no point destroyed); on the empty list it returns
`-1`; on a well-formed one-element list it hands the never assigned local `pointp` to
`asciip_point_destroy`. -/
theorem asciip_list_destroy_wrong_loop_bound :
    WellFormed exMem exList exCells ∧
      asciip_list_destroy exMem (some exList) none = .ok (0, none, exMem) ∧
      WellFormed exMem emptyList [] ∧
      (asciip_list_destroy exMem (some emptyList) none).toOption.map (fun r => r.1) =
        some (-1) ∧
      WellFormed exMem exList1 [⟨2, 2⟩] ∧
      asciip_list_destroy exMem (some exList1) none = .error .wild_use := by
  decide

/-- C14 (code bug): for every memory and tracker, `asciip_list_sort` on the empty list
returns its failure value `-1` although no diagnostic line was printed (the output
stream is unchanged) and the tracker was not touched. -/
theorem asciip_list_sort_empty_no_diagnostic (m : Mem) (error : Option Asciip_Error) :
    ∃ m1, asciip_list_sort m (some emptyList) error = .ok (-1, some emptyList, error, m1) ∧
      m1.out = m.out ∧ WellFormed m emptyList [] := by
  refine ⟨m, ?_, rfl, ?_⟩
  · simp [asciip_list_sort, emptyList, asciip_merge_sort, isNull]
  · exact ⟨rfl, rfl, by simp, rfl, by simp⟩

/-! ## Appending and the tail reference (C15 to C18) -/

theorem Mem.node_malloc_of_ne (m : Mem) (x : Asciip_Node) (k : Nat) {b : Nat}
    (h : b ≠ m.nodes.length) :
    ({ m with nodes := m.nodes ++ [some x], avail := k } : Mem).node b = m.node b := by
  unfold Mem.node
  simp only [List.getD_eq_getElem?_getD]
  rcases Nat.lt_or_gt_of_ne h with hlt | hgt
  · rw [List.getElem?_append_left hlt]
  · rw [List.getElem?_eq_none (by simp; omega), List.getElem?_eq_none (by omega)]

theorem lastPtr_concat (cs : List Cell) (c : Cell) : lastPtr (cs ++ [c]) = .addr c.node := by
  simp [lastPtr]

/-- What `asciip_list_add` does on a well-formed non-empty list when a node can be
allocated: it returns `0`, increments `size` modulo `2 ^ 16`, keeps `head`, makes `tail`
the fresh node; the chain from `head` now runs through the old cells and the fresh
node, whose `next` field was never written. -/
theorem asciip_list_add_nonempty (m : Mem) (l : Asciip_List) (cs : List Cell) (p : Nat)
    (error : Option Asciip_Error) (hwf : WellFormed m l cs) (hne : cs ≠ [])
    (havail : 0 < m.avail) :
    ∃ m1, asciip_list_add m (some l) (.addr p) error =
        .ok (0,
          some { size := (l.size + 1) % 65536, head := l.head, tail := .addr m.nodes.length },
          error, m1) ∧
      m.node m.nodes.length = none ∧
      m1.node m.nodes.length = some ⟨.addr p, .wild⟩ ∧
      Seg m1 l.head (cs ++ [⟨m.nodes.length, p⟩]) .wild ∧
      m1.points = m.points ∧ m1.out = m.out := by
  obtain ⟨ini, last, hcs⟩ : ∃ ini last, cs = ini ++ [last] :=
    ⟨cs.dropLast, cs.getLast hne, (List.dropLast_append_getLast hne).symm⟩
  have hchain := hwf.chain
  have hnd := Seg.nodup hchain
  have htail := hwf.tail_eq
  unfold Chain at hchain
  rw [hcs] at hchain hnd htail
  rw [lastPtr_concat] at htail
  obtain ⟨r, hini, hlast⟩ := (Seg_append_iff m ini [last] l.head .null).mp hchain
  rw [Seg_cons_iff] at hlast
  obtain ⟨hr, nx, hn, hnil⟩ := hlast
  rw [Seg_nil_iff] at hnil
  subst hnil hr
  have hlt := Mem.node_lt hn
  have hav : m.avail ≠ 0 := by omega
  have hfresh : m.node m.nodes.length = none := by
    unfold Mem.node
    simp [List.getD_eq_getElem?_getD]
  -- the memory after `malloc` and `nodep->data = point`
  have hm2len : (({ m with nodes := m.nodes ++ [some ⟨.wild, .wild⟩], avail := m.avail - 1 } :
      Mem).setNode m.nodes.length ⟨.addr p, .wild⟩).nodes.length = m.nodes.length + 1 := by
    simp [Mem.setNode]
  have hm2new : (({ m with nodes := m.nodes ++ [some ⟨.wild, .wild⟩], avail := m.avail - 1 } :
      Mem).setNode m.nodes.length ⟨.addr p, .wild⟩).node m.nodes.length =
      some ⟨.addr p, .wild⟩ := by
    apply Mem.node_setNode_self
    simp
  have hm2old : ∀ b, b ≠ m.nodes.length →
      (({ m with nodes := m.nodes ++ [some ⟨.wild, .wild⟩], avail := m.avail - 1 } :
        Mem).setNode m.nodes.length ⟨.addr p, .wild⟩).node b = m.node b := by
    intro b hb
    rw [Mem.node_setNode_of_ne _ _ (fun h => hb h.symm)]
    exact Mem.node_malloc_of_ne m _ _ hb
  have hm2last := hm2old last.node (by omega)
  rw [hn] at hm2last
  refine ⟨(({ m with nodes := m.nodes ++ [some ⟨.wild, .wild⟩], avail := m.avail - 1 } :
      Mem).setNode m.nodes.length ⟨.addr p, .wild⟩).setNode last.node
      ⟨.addr last.point, .addr m.nodes.length⟩, ?_, hfresh, ?_, ?_, ?_, ?_⟩
  · simp only [asciip_list_add, isNull, malloc_node, hav, if_false, htail, rdNode, hm2last]
  · rw [Mem.node_setNode_of_ne _ _ (by omega : last.node ≠ m.nodes.length)]
    exact hm2new
  · rw [hcs, List.append_assoc, Seg_append_iff]
    refine ⟨.addr last.node, ?_, ?_⟩
    · apply Seg.congr _ hini
      intro c hc
      obtain ⟨nxc, hnc⟩ := Seg.node_some hini c hc
      have hc1 : c.node ≠ last.node := by
        intro heq
        simp only [List.map_append, List.map_cons, List.map_nil, List.nodup_append] at hnd
        exact hnd.2.2 (List.mem_map_of_mem _ hc) (by rw [heq]; simp)
      rw [Mem.node_setNode_of_ne _ _ (fun h => hc1 h.symm)]
      exact hm2old c.node (Nat.ne_of_lt (Mem.node_lt hnc))
    · simp only [List.singleton_append]
      rw [Seg_cons_iff]
      refine ⟨rfl, .addr m.nodes.length, ?_, ?_⟩
      · apply Mem.node_setNode_self
        rw [hm2len]
        omega
      · rw [Seg_cons_iff]
        refine ⟨rfl, .wild, ?_, rfl⟩
        rw [Mem.node_setNode_of_ne _ _ (by omega : last.node ≠ m.nodes.length)]
        exact hm2new
  · rfl
  · rfl

/-- C16 (code bug): on the well-formed list of three points, `asciip_list_add` returns
`0`, sets `size` to `4`, keeps `head` and makes `tail` the new node `3` carrying the
point, but the `next` field of that node is left as allocated (never set to `NULL`), so
the chain from `head` is not null-terminated. -/
theorem asciip_list_add_next_not_null :
    WellFormed exMem exList exCells ∧
      asciip_list_add exMem (some exList) (.addr 0) none =
        .ok (0, some { size := 4, head := .addr 0, tail := .addr 3 }, none,
          { exMem with
            nodes := [some ⟨.addr 0, .addr 1⟩, some ⟨.addr 1, .addr 2⟩, some ⟨.addr 2, .addr 3⟩,
              some ⟨.addr 0, .wild⟩]
            avail := 7 }) ∧
      Seg { exMem with
            nodes := [some ⟨.addr 0, .addr 1⟩, some ⟨.addr 1, .addr 2⟩, some ⟨.addr 2, .addr 3⟩,
              some ⟨.addr 0, .wild⟩]
            avail := 7 } (.addr 0) (exCells ++ [⟨3, 0⟩]) .wild ∧
      ¬ Chain { exMem with
            nodes := [some ⟨.addr 0, .addr 1⟩, some ⟨.addr 1, .addr 2⟩, some ⟨.addr 2, .addr 3⟩,
              some ⟨.addr 0, .wild⟩]
            avail := 7 } (.addr 0) (exCells ++ [⟨3, 0⟩]) := by
  decide

/-- C17 (code bug): removing the only element of a well-formed one-element list returns
its point and leaves `size == 0` and `head` absent, but `tail` still holds the address
of the removed node, whose cell has been freed. -/
theorem asciip_list_remove_keeps_stale_tail :
    WellFormed exMem exList1 [⟨2, 2⟩] ∧
      asciip_list_remove exMem (some exList1) 0 none =
        .ok (.addr 2, some { size := 0, head := .null, tail := .addr 2 }, none,
          { exMem with nodes := [some ⟨.addr 0, .addr 1⟩, some ⟨.addr 1, .addr 2⟩, none] }) ∧
      ({ exMem with nodes := [some ⟨.addr 0, .addr 1⟩, some ⟨.addr 1, .addr 2⟩, none] } :
        Mem).node 2 = none := by
  decide

/-- C18 (code bug): after `asciip_list_sort` on the well-formed list of the points
`(3,0)`, `(1,0)`, `(2,0)` the chain from the new `head` is the nodes `1, 2, 0`, whose
last node is node `0`, but `tail` still refers to node `2`: the list is well-formed for
no traversal. -/
theorem asciip_list_sort_keeps_stale_tail :
    WellFormed exMem exList exCells ∧
      asciip_list_sort exMem (some exList) none =
        .ok (0, some { size := 3, head := .addr 1, tail := .addr 2 }, none,
          { exMem with nodes := [some ⟨.addr 0, .null⟩, some ⟨.addr 1, .addr 2⟩,
              some ⟨.addr 2, .addr 0⟩] }) ∧
      Chain { exMem with nodes := [some ⟨.addr 0, .null⟩, some ⟨.addr 1, .addr 2⟩,
          some ⟨.addr 2, .addr 0⟩] } (.addr 1) [⟨1, 1⟩, ⟨2, 2⟩, ⟨0, 0⟩] ∧
      lastPtr [⟨1, 1⟩, ⟨2, 2⟩, ⟨0, 0⟩] = .addr 0 ∧
      ¬ ∃ cs, WellFormed { exMem with nodes := [some ⟨.addr 0, .null⟩,
          some ⟨.addr 1, .addr 2⟩, some ⟨.addr 2, .addr 0⟩] }
          { size := 3, head := .addr 1, tail := .addr 2 } cs := by
  refine ⟨by decide, by decide, by decide, by decide, ?_⟩
  rintro ⟨cs, hwf⟩
  have hc : Chain { exMem with nodes := [some ⟨.addr 0, .null⟩, some ⟨.addr 1, .addr 2⟩,
      some ⟨.addr 2, .addr 0⟩] } (.addr 1) [⟨1, 1⟩, ⟨2, 2⟩, ⟨0, 0⟩] := by decide
  have hcs := Seg.functional hwf.chain hc
  subst hcs
  exact absurd hwf.tail_eq (by decide)

/-! ## Merging and splitting (C19, C20) -/

/-- C19 (amended): for two disjoint null-terminated chains of allocated points, each
sorted by non-decreasing `x` (either may be empty), `asciip_merge_list` (given at least
`l1.length + l2.length - 1` loop iterations) returns a null-terminated chain made of
exactly the cells of both chains; it allocates nothing, prints nothing, leaves the
points and every other node unchanged. When no `x` value of the two chains is NaN, the
returned chain is sorted by non-decreasing `x`. -/
theorem asciip_merge_list_sorted_unless_nan (fuel : Nat) (m : Mem) (a b : Ptr)
    (l1 l2 : List Cell) (ha : Chain m a l1) (hb : Chain m b l2)
    (hdisj : ∀ c1 ∈ l1, ∀ c2 ∈ l2, c1.node ≠ c2.node)
    (hpoints : ∀ c ∈ l1 ++ l2, (m.point c.point).isSome = true)
    (hs1 : SortedByX m l1) (hs2 : SortedByX m l2) (hfuel : l1.length + l2.length ≤ fuel + 1) :
    ∃ r m1 cs, asciip_merge_list fuel m a b = .ok (r, m1) ∧
      Chain m1 r cs ∧ cs.Perm (l1 ++ l2) ∧ (NoNaN m (l1 ++ l2) → SortedByX m1 cs) ∧
      m1.points = m.points ∧ m1.nodes.length = m.nodes.length ∧ m1.avail = m.avail ∧
      m1.out = m.out ∧ ∀ n, n ∉ (l1 ++ l2).map Cell.node → m1.node n = m.node n := by
  have hnd : ((l1 ++ l2).map Cell.node).Nodup := by
    rw [List.map_append, List.nodup_append]
    refine ⟨Seg.nodup ha, Seg.nodup hb, ?_⟩
    intro x hx1 hx2
    obtain ⟨c1, hc1, e1⟩ := List.mem_map.mp hx1
    obtain ⟨c2, hc2, e2⟩ := List.mem_map.mp hx2
    exact hdisj c1 hc1 c2 hc2 (by rw [e1, e2])
  obtain ⟨d1, m1, r, cs, hrun, hseg, hperm, hsorted, hnone, _, hf⟩ :=
    merge_loop_spec fuel l1 l2 m a b none .wild ha hb hnd hpoints (fun t ht => by cases ht) hfuel
  have hd := hnone rfl
  subst hd
  refine ⟨d1, m1, cs, hrun, hseg, hperm,
    fun hn => (SortedByX_congr hf.1 _).mpr (hsorted hn hs1 hs2), hf.1,
    hf.2.2.2.1, hf.2.1, hf.2.2.1, fun n hn => hf.2.2.2.2 n ?_⟩
  rintro (h | h)
  · exact hn h
  · cases h

theorem asciip_merge_list_sorted_unless_nan_witness :
    Chain exMergeMem (.addr 0) exMergeCells1 ∧ Chain exMergeMem (.addr 2) exMergeCells2 ∧
      SortedByX exMergeMem exMergeCells1 ∧ SortedByX exMergeMem exMergeCells2 ∧
      NoNaN exMergeMem (exMergeCells1 ++ exMergeCells2) ∧
      ∃ r m1 cs, asciip_merge_list 2 exMergeMem (.addr 0) (.addr 2) = .ok (r, m1) ∧
        Chain m1 r cs ∧ cs.Perm (exMergeCells1 ++ exMergeCells2) ∧ SortedByX m1 cs ∧
        m1.points = exMergeMem.points ∧ m1.nodes.length = exMergeMem.nodes.length ∧
        m1.avail = exMergeMem.avail ∧ m1.out = exMergeMem.out ∧
        ∀ n, n ∉ (exMergeCells1 ++ exMergeCells2).map Cell.node →
          m1.node n = exMergeMem.node n := by
  obtain ⟨r, m1, cs, hrun, hchain, hperm, hsorted, hrest⟩ :=
    asciip_merge_list_sorted_unless_nan 2 exMergeMem (.addr 0) (.addr 2) exMergeCells1
      exMergeCells2 (by decide) (by decide) (by decide) (by decide)
      (by unfold SortedByX; decide) (by unfold SortedByX; decide) (by decide)
  exact ⟨by decide, by decide, by unfold SortedByX; decide, by unfold SortedByX; decide,
    by decide, r, m1, cs, hrun, hchain, hperm, hsorted (by decide), hrest⟩

/-- C19, counterexample: the one-node chains with `x` NaN (node `0`) and `x = 1`
(node `1`) are disjoint, null-terminated and each sorted (a single node is);
`asciip_merge_list`, with any iteration bound that suffices for two nodes, returns the
chain node `1`, node `0`, whose `x` values are `1`, NaN: `1 <= NaN` is false, so the
returned chain is not sorted by non-decreasing `x`, and it has no other traversal. -/
theorem asciip_merge_list_nan_not_sorted :
    Chain exNanMergeMem (.addr 0) exNanMergeCells1 ∧
      Chain exNanMergeMem (.addr 1) exNanMergeCells2 ∧
      (∀ c1 ∈ exNanMergeCells1, ∀ c2 ∈ exNanMergeCells2, c1.node ≠ c2.node) ∧
      (∀ c ∈ exNanMergeCells1 ++ exNanMergeCells2,
        (exNanMergeMem.point c.point).isSome = true) ∧
      SortedByX exNanMergeMem exNanMergeCells1 ∧ SortedByX exNanMergeMem exNanMergeCells2 ∧
      (∀ fuel, asciip_merge_list (fuel + 1) exNanMergeMem (.addr 0) (.addr 1) =
        .ok (.addr 1, exNanMergedMem)) ∧
      Chain exNanMergedMem (.addr 1) exNanMergedCells ∧
      exNanMergedCells.map (xOf exNanMergedMem) = [1, Dbl.nan] ∧
      ∀ cs, Chain exNanMergedMem (.addr 1) cs → ¬ SortedByX exNanMergedMem cs := by
  refine ⟨by decide, by decide, by decide, by decide, by unfold SortedByX; decide,
    by unfold SortedByX; decide, fun fuel => by cases fuel <;> rfl, by decide, by decide,
    fun cs h => ?_⟩
  have hcs : cs = exNanMergedCells := Seg.functional h (by decide)
  subst hcs
  unfold SortedByX
  decide

/-- After the base case, `asciip_merge_sort` is its split followed by the two recursive
calls and the merge. -/
theorem asciip_merge_sort_eq_recurse (fuel : Nat) (m m2 : Mem) (a a2 : Nat) (dp list2 : Ptr)
    (s new : Nat) (error e1 : Option Asciip_Error)
    (hn : m.node a = some ⟨dp, .addr a2⟩)
    (hs : merge_sort_sever m (.addr a) s error = .ok (list2, new, e1, m2)) :
    asciip_merge_sort (fuel + 1) m (.addr a) s error =
      merge_sort_recurse fuel m2 (.addr a) list2 new e1 := by
  have hrdA : rdNode m (.addr a) = .ok (a, ⟨dp, .addr a2⟩) := by
    simp only [rdNode, hn]
  simp only [merge_sort_sever] at hs
  simp only [asciip_merge_sort, isNull, hrdA, merge_sort_recurse]
  split at hs
  · cases hs
  · rename_i middlep e m1 hget
    split at hs
    · cases hs
    · rename_i ma mn hrd
      simp only [Except.ok.injEq, Prod.mk.injEq] at hs
      obtain ⟨h1, h2, h3, h4⟩ := hs
      subst h1 h2 h3 h4
      simp only [hget, hrd]

/-- C20: on every null-terminated chain of `n ≥ 2` nodes, the split of
`asciip_merge_sort` called with `list_size == n` computes the half-length `n / 2` and
severs the chain, without reporting anything, into a null-terminated first sub-chain
made of the first `n / 2` nodes and a null-terminated second sub-chain made of the
remaining `n - n / 2` nodes, both in their original order; `asciip_merge_sort` then
continues on these two sub-chains. -/
theorem asciip_merge_sort_split_halves (m : Mem) (head : Ptr) (cs : List Cell)
    (error : Option Asciip_Error) (hchain : Chain m head cs) (hn : 2 ≤ cs.length) :
    ∃ list2 m2, merge_sort_sever m head cs.length error =
        .ok (list2, cs.length / 2, error, m2) ∧
      Chain m2 head (cs.take (cs.length / 2)) ∧ Chain m2 list2 (cs.drop (cs.length / 2)) ∧
      (cs.take (cs.length / 2)).length = cs.length / 2 ∧
      (cs.drop (cs.length / 2)).length = cs.length - cs.length / 2 ∧
      m2.points = m.points ∧
      ∀ fuel, asciip_merge_sort (fuel + 1) m head cs.length error =
        merge_sort_recurse fuel m2 head list2 (cs.length / 2) error := by
  unfold Chain at hchain
  have hk : cs.length / 2 - 1 < cs.length := by omega
  obtain ⟨l1, mid, l2, hsplit, hl1⟩ := list_split_at_index cs _ hk
  have hlen : cs.length = l1.length + 1 + l2.length := by
    have := congrArg List.length hsplit
    simp only [List.length_cons, List.length_append] at this
    omega
  have hhalf : (l1 ++ [mid]).length = cs.length / 2 := by
    simp only [List.length_append, List.length_singleton]
    omega
  have hcs : cs = (l1 ++ [mid]) ++ l2 := by
    rw [hsplit]
    simp
  have htake : cs.take (cs.length / 2) = l1 ++ [mid] := by
    have h : ((l1 ++ [mid]) ++ l2).take (cs.length / 2) = l1 ++ [mid] := List.take_left' hhalf
    rw [← hcs] at h
    exact h
  have hdrop : cs.drop (cs.length / 2) = l2 := by
    have h : ((l1 ++ [mid]) ++ l2).drop (cs.length / 2) = l2 := List.drop_left' hhalf
    rw [← hcs] at h
    exact h
  have hseg := hchain
  rw [hsplit] at hseg
  have hget := asciip_list_get_node_spec error hseg hl1.symm
  obtain ⟨nxm, hmid⟩ := Seg.node_some hseg mid (by simp)
  obtain ⟨hsv1, hsv2⟩ := Seg_sever hseg hmid
  have hsever : merge_sort_sever m head cs.length error =
      .ok (nxm, cs.length / 2, error, m.setNode mid.node ⟨.addr mid.point, .null⟩) := by
    simp only [merge_sort_sever, hget, rdNode, hmid]
  refine ⟨nxm, m.setNode mid.node ⟨.addr mid.point, .null⟩, hsever, ?_, ?_, ?_, ?_, rfl, ?_⟩
  · rw [htake]
    exact hsv1
  · rw [hdrop]
    exact hsv2
  · rw [htake, hhalf]
  · rw [hdrop]
    omega
  · intro fuel
    -- the first node and its successor
    obtain ⟨c, c2, rest, hshape⟩ : ∃ c c2 rest, cs = c :: c2 :: rest := by
      match cs, hn with
      | c :: c2 :: rest, _ => exact ⟨c, c2, rest, rfl⟩
    have h0 := hchain
    rw [hshape, Seg_cons_iff] at h0
    obtain ⟨hhead, nx, hnode, hrest⟩ := h0
    rw [Seg_cons_iff] at hrest
    obtain ⟨hnx, _⟩ := hrest
    subst hnx
    rw [hhead] at hsever ⊢
    exact asciip_merge_sort_eq_recurse fuel m _ c.node c2.node _ nxm cs.length _ error error
      hnode hsever

theorem asciip_merge_sort_split_halves_witness :
    Chain exMem (.addr 0) exCells ∧ 2 ≤ exCells.length ∧
      ∃ list2 m2, merge_sort_sever exMem (.addr 0) exCells.length none =
          .ok (list2, exCells.length / 2, none, m2) ∧
        Chain m2 (.addr 0) (exCells.take (exCells.length / 2)) ∧
        Chain m2 list2 (exCells.drop (exCells.length / 2)) ∧
        (exCells.take (exCells.length / 2)).length = exCells.length / 2 ∧
        (exCells.drop (exCells.length / 2)).length = exCells.length - exCells.length / 2 ∧
        m2.points = exMem.points ∧
        ∀ fuel, asciip_merge_sort (fuel + 1) exMem (.addr 0) exCells.length none =
          merge_sort_recurse fuel m2 (.addr 0) list2 (exCells.length / 2) none :=
  ⟨by decide, by decide,
    asciip_merge_sort_split_halves exMem (.addr 0) exCells none (by decide) (by decide)⟩

/-! ## Termination of the merge sort (C23) -/

/-- On a non-empty chain, the walk of `asciip_list_get_node` with an index whose
predecessor lies inside the chain stops on the node at position `index - 1`, reports
nothing and returns that node. -/
theorem asciip_list_get_node_in_chain (m : Mem) (head : Ptr) (cs : List Cell) (index : Nat)
    (error : Option Asciip_Error) (hchain : Seg m head cs .null)
    (hi : index - 1 < cs.length) :
    ∃ c, cs[index - 1]? = some c ∧
      asciip_list_get_node m head index error = .ok (.addr c.node, error, m) := by
  obtain ⟨l1, c, l2, hsplit, hl1⟩ := list_split_at_index cs _ hi
  refine ⟨c, ?_, ?_⟩
  · rw [hsplit, ← hl1, List.getElem?_append_right (le_refl _)]
    simp
  · rw [hsplit] at hchain
    exact asciip_list_get_node_spec error hchain hl1.symm

/-- The split of `asciip_merge_sort` on a chain of at least two nodes with a size
argument that does not exceed its length: both sub-chains are null-terminated and
non-empty, each is strictly shorter than the chain and at least as long as the
half-length handed to the recursive calls. -/
theorem merge_sort_sever_spec (m : Mem) (head : Ptr) (cs : List Cell) (s : Nat)
    (error : Option Asciip_Error) (hchain : Seg m head cs .null) (hn : 2 ≤ cs.length)
    (hs : s ≤ cs.length) :
    ∃ list2 m2 first second, merge_sort_sever m head s error = .ok (list2, s / 2, error, m2) ∧
      cs = first ++ second ∧ Seg m2 head first .null ∧ Seg m2 list2 second .null ∧
      first.length = max (s / 2) 1 ∧ 1 ≤ second.length ∧
      first.length < cs.length ∧ second.length < cs.length ∧
      s / 2 ≤ first.length ∧ s / 2 ≤ second.length ∧
      Frame m m2 (fun b => b ∈ first.map Cell.node) := by
  have hk : s / 2 - 1 < cs.length := by omega
  obtain ⟨l1, mid, l2, hsplit, hl1⟩ := list_split_at_index cs _ hk
  have hlen : cs.length = l1.length + 1 + l2.length := by
    have := congrArg List.length hsplit
    simp only [List.length_cons, List.length_append] at this
    omega
  have hseg := hchain
  rw [hsplit] at hseg
  have hget := asciip_list_get_node_spec error hseg hl1.symm
  obtain ⟨nxm, hmid⟩ := Seg.node_some hseg mid (by simp)
  obtain ⟨hsv1, hsv2⟩ := Seg_sever hseg hmid
  have hfirst : (l1 ++ [mid]).length = l1.length + 1 := by simp
  refine ⟨nxm, m.setNode mid.node ⟨.addr mid.point, .null⟩, l1 ++ [mid], l2, ?_, ?_, hsv1, hsv2,
    ?_, ?_, ?_, ?_, ?_, ?_, ?_⟩
  · simp only [merge_sort_sever, hget, rdNode, hmid]
  · rw [hsplit]
    simp
  · rw [hfirst]
    omega
  · omega
  · rw [hfirst]
    omega
  · omega
  · rw [hfirst]
    omega
  · omega
  · refine ⟨rfl, rfl, rfl, by simp [Mem.setNode], fun b hb => ?_⟩
    apply Mem.node_setNode_of_ne
    intro h
    apply hb
    rw [← h]
    simp

/-- C23: on every finite null-terminated chain of `n` nodes (carrying allocated points)
and for every `list_size ≤ n`, `asciip_merge_sort` returns a result as soon as the
recursion bound exceeds `n`; and whenever `n ≥ 2` its split leaves two null-terminated
sub-chains that are non-empty and strictly shorter than `n`, each at least as long as
the size argument `list_size / 2` handed to both recursive calls, on which
`asciip_merge_sort` continues. -/
theorem asciip_merge_sort_terminates (m : Mem) (head : Ptr) (cs : List Cell) (s : Nat)
    (error : Option Asciip_Error) (hchain : Chain m head cs)
    (hpoints : ∀ c ∈ cs, (m.point c.point).isSome = true) (hs : s ≤ cs.length) :
    (∀ fuel, cs.length < fuel →
        ∃ r m1, asciip_merge_sort fuel m head s error = .ok (r, error, m1)) ∧
      (2 ≤ cs.length →
        ∃ list2 m2 first second,
          merge_sort_sever m head s error = .ok (list2, s / 2, error, m2) ∧
          (∀ fuel, asciip_merge_sort (fuel + 1) m head s error =
            merge_sort_recurse fuel m2 head list2 (s / 2) error) ∧
          cs = first ++ second ∧ Chain m2 head first ∧ Chain m2 list2 second ∧
          1 ≤ first.length ∧ 1 ≤ second.length ∧
          first.length < cs.length ∧ second.length < cs.length ∧
          s / 2 ≤ first.length ∧ s / 2 ≤ second.length) := by
  constructor
  · intro fuel hfuel
    obtain ⟨r, m1, cs1, hrun, _⟩ := merge_sort_spec fuel cs m head s error hchain hpoints hs hfuel
    exact ⟨r, m1, hrun⟩
  · intro hn
    obtain ⟨list2, m2, first, second, hsev, hcs, h1, h2, hf, hsec, hlt1, hlt2, hs1, hs2, _⟩ :=
      merge_sort_sever_spec m head cs s error hchain hn hs
    refine ⟨list2, m2, first, second, hsev, ?_, hcs, h1, h2, by omega, hsec, hlt1, hlt2, hs1,
      hs2⟩
    intro fuel
    obtain ⟨c, c2, rest, hshape⟩ : ∃ c c2 rest, cs = c :: c2 :: rest := by
      match cs, hn with
      | c :: c2 :: rest, _ => exact ⟨c, c2, rest, rfl⟩
    have h0 := hchain
    unfold Chain at h0
    rw [hshape, Seg_cons_iff] at h0
    obtain ⟨hhead, nx, hnode, hrest⟩ := h0
    rw [Seg_cons_iff] at hrest
    obtain ⟨hnx, _⟩ := hrest
    subst hnx
    rw [hhead] at hsev ⊢
    exact asciip_merge_sort_eq_recurse fuel m m2 c.node c2.node _ list2 s _ error error
      hnode hsev

theorem asciip_merge_sort_terminates_witness :
    Chain exMem (.addr 0) exCells ∧ 2 ≤ exCells.length ∧
      (∀ fuel, exCells.length < fuel →
        ∃ r m1, asciip_merge_sort fuel exMem (.addr 0) 3 none = .ok (r, none, m1)) ∧
      (2 ≤ exCells.length →
        ∃ list2 m2 first second,
          merge_sort_sever exMem (.addr 0) 3 none = .ok (list2, 3 / 2, none, m2) ∧
          (∀ fuel, asciip_merge_sort (fuel + 1) exMem (.addr 0) 3 none =
            merge_sort_recurse fuel m2 (.addr 0) list2 (3 / 2) none) ∧
          exCells = first ++ second ∧ Chain m2 (.addr 0) first ∧ Chain m2 list2 second ∧
          1 ≤ first.length ∧ 1 ≤ second.length ∧
          first.length < exCells.length ∧ second.length < exCells.length ∧
          3 / 2 ≤ first.length ∧ 3 / 2 ≤ second.length) :=
  ⟨by decide, by decide,
    asciip_merge_sort_terminates exMem (.addr 0) exCells 3 none (by decide) (by decide)
      (by decide)⟩

/-! ## The walk in the second half (C21) -/

/-- The recursive call of `asciip_merge_sort` for the second half of a well-formed list
of odd size `n ≥ 3`: after the split and the sort of the first half, the second
sub-chain holds `n / 2 + 1` nodes, more than the half-length `n / 2` it is given, and
the walk `asciip_list_get_node(list2, (n / 2) / 2)` of that call stops on a node of the
sub-chain without reporting anything; the whole sort returns `0`. -/
theorem merge_sort_second_half_walk (m : Mem) (l : Asciip_List) (cs : List Cell)
    (error : Option Asciip_Error) (hwf : WellFormed m l cs) (hodd : cs.length % 2 = 1)
    (h3 : 3 ≤ cs.length) :
    ∃ list2 m2 s1 m3 c,
      merge_sort_sever m l.head l.size error = .ok (list2, l.size / 2, error, m2) ∧
      asciip_merge_sort m.nodes.length m2 l.head (l.size / 2) error = .ok (s1, error, m3) ∧
      Chain m3 list2 (cs.drop (cs.length / 2)) ∧
      l.size / 2 < (cs.drop (cs.length / 2)).length ∧
      (cs.drop (cs.length / 2))[l.size / 2 / 2 - 1]? = some c ∧
      asciip_list_get_node m3 list2 (l.size / 2 / 2) error = .ok (.addr c.node, error, m3) := by
  have hchain := hwf.chain
  unfold Chain at hchain
  have hsize := hwf.size_eq
  have hle := Seg.length_le hchain
  have hnd := Seg.nodup hchain
  obtain ⟨list2, m2, first, second, hsev, hcs, hsg1, hsg2, hfl, hsl, hlt1, hlt2, hs1, hs2, hf⟩ :=
    merge_sort_sever_spec m l.head cs l.size error hchain (by omega) (le_of_eq hsize)
  have hfirst : first.length = cs.length / 2 := by
    rw [hfl, hsize]
    omega
  have hdrop : cs.drop (cs.length / 2) = second := by
    have h : (first ++ second).drop (cs.length / 2) = second := List.drop_left' hfirst
    rw [← hcs] at h
    exact h
  have hseclen : second.length = cs.length - cs.length / 2 := by
    have := congrArg List.length hcs
    simp only [List.length_append] at this
    omega
  -- the first half is sorted first
  obtain ⟨s1, m3, cs1, hrun1, _, _, _, hf1⟩ :=
    merge_sort_spec m.nodes.length first m2 l.head (l.size / 2) error hsg1
      (Frame.points_ok hf (fun c hc => hwf.points c (by rw [hcs]; simp [hc])))
      hs1 (by omega)
  have hsg2' : Seg m3 list2 second .null := by
    apply Frame.seg hf1 _ hsg2
    intro c hc hmem
    rw [hcs, List.map_append, List.nodup_append] at hnd
    exact hnd.2.2 hmem (List.mem_map_of_mem _ hc)
  obtain ⟨c, hc, hwalk⟩ :=
    asciip_list_get_node_in_chain m3 list2 second (l.size / 2 / 2) error hsg2' (by omega)
  refine ⟨list2, m2, s1, m3, c, hsev, hrun1, ?_, ?_, ?_, hwalk⟩
  · rw [hdrop]
    exact hsg2'
  · rw [hdrop, hseclen, hsize]
    omega
  · rw [hdrop]
    exact hc

/-- On a well-formed list holding at least one point `asciip_list_sort` returns `0` and
prints nothing. -/
theorem asciip_list_sort_ok (m : Mem) (l : Asciip_List) (cs : List Cell)
    (error : Option Asciip_Error) (hwf : WellFormed m l cs) (hN : 1 ≤ cs.length) :
    ∃ l1 m1, asciip_list_sort m (some l) error = .ok (0, some l1, error, m1) ∧
      m1.out = m.out := by
  have hlen := Seg.length_le hwf.chain
  obtain ⟨r, m1, cs1, hrun, hseg, hperm, _, hf⟩ :=
    merge_sort_spec (m.nodes.length + 1) cs m l.head l.size error hwf.chain hwf.points
      (le_of_eq hwf.size_eq) (by omega)
  have hne : ∃ a, r = .addr a := by
    cases cs1 with
    | nil =>
      have := hperm.length_eq
      simp at this
      omega
    | cons c cs1 =>
      rw [Seg_cons_iff] at hseg
      exact ⟨c.node, hseg.1⟩
  obtain ⟨a, ha⟩ := hne
  refine ⟨{ l with head := r }, m1, ?_, hf.2.2.1⟩
  simp [asciip_list_sort, hrun, ha, isNull]

/-- C21 (amended): on every well-formed list of odd size `n ≥ 3`, the recursive
`asciip_merge_sort` call for the second (larger) half receives the half-length `n / 2`,
which is smaller than the `n / 2 + 1` nodes of that sub-chain; its node-location walk
`asciip_list_get_node(list2, (n / 2) / 2)` stops on the node at position
`(n / 2) / 2 - 1` of the sub-chain, reports nothing and yields that node as the middle
node; `asciip_list_sort` returns `0` and prints nothing. -/
theorem asciip_merge_sort_second_half_walk_ok (m : Mem) (l : Asciip_List) (cs : List Cell)
    (error : Option Asciip_Error) (hwf : WellFormed m l cs) (hodd : cs.length % 2 = 1)
    (h3 : 3 ≤ cs.length) :
    (∃ list2 m2 s1 m3 c,
      merge_sort_sever m l.head l.size error = .ok (list2, l.size / 2, error, m2) ∧
      asciip_merge_sort m.nodes.length m2 l.head (l.size / 2) error = .ok (s1, error, m3) ∧
      Chain m3 list2 (cs.drop (cs.length / 2)) ∧
      l.size / 2 < (cs.drop (cs.length / 2)).length ∧
      (cs.drop (cs.length / 2))[l.size / 2 / 2 - 1]? = some c ∧
      asciip_list_get_node m3 list2 (l.size / 2 / 2) error =
        .ok (.addr c.node, error, m3)) ∧
      ∃ l1 m1, asciip_list_sort m (some l) error = .ok (0, some l1, error, m1) ∧
        m1.out = m.out :=
  ⟨merge_sort_second_half_walk m l cs error hwf hodd h3,
    asciip_list_sort_ok m l cs error hwf (by omega)⟩

theorem asciip_merge_sort_second_half_walk_ok_witness :
    WellFormed exMem exList exCells ∧ exCells.length % 2 = 1 ∧ 3 ≤ exCells.length ∧
      (∃ list2 m2 s1 m3 c,
        merge_sort_sever exMem exList.head exList.size none =
          .ok (list2, exList.size / 2, none, m2) ∧
        asciip_merge_sort exMem.nodes.length m2 exList.head (exList.size / 2) none =
          .ok (s1, none, m3) ∧
        Chain m3 list2 (exCells.drop (exCells.length / 2)) ∧
        exList.size / 2 < (exCells.drop (exCells.length / 2)).length ∧
        (exCells.drop (exCells.length / 2))[exList.size / 2 / 2 - 1]? = some c ∧
        asciip_list_get_node m3 list2 (exList.size / 2 / 2) none =
          .ok (.addr c.node, none, m3)) ∧
      ∃ l1 m1, asciip_list_sort exMem (some exList) none = .ok (0, some l1, none, m1) ∧
        m1.out = exMem.out :=
  ⟨by decide, by decide, by decide,
    asciip_merge_sort_second_half_walk_ok exMem exList exCells none (by decide) (by decide)
      (by decide)⟩

/-- C21 (counterexample): there is no well-formed list of odd size on which the sort
ends in a fault (which is how a walk that yields no middle node ends, `middlep->next`
being read next), nor one of odd size `n ≥ 3` on which, after the split and the sort of
the first half, the walk `asciip_list_get_node(list2, new_list_size / 2)` of the
recursive call for the second half returns `NULL`. -/
theorem asciip_merge_sort_walk_never_misterminates :
    ¬ ∃ (m : Mem) (l : Asciip_List) (cs : List Cell) (error : Option Asciip_Error),
      WellFormed m l cs ∧ cs.length % 2 = 1 ∧
        ((∃ f, asciip_list_sort m (some l) error = .error f) ∨
          (3 ≤ cs.length ∧ ∃ list2 new e1 m2 s1 e2 m3 e3 m4,
            merge_sort_sever m l.head l.size error = .ok (list2, new, e1, m2) ∧
            asciip_merge_sort m.nodes.length m2 l.head new e1 = .ok (s1, e2, m3) ∧
            asciip_list_get_node m3 list2 (new / 2) e2 = .ok (.null, e3, m4))) := by
  rintro ⟨m, l, cs, error, hwf, hodd, hbad⟩
  rcases hbad with ⟨f, hf⟩ | ⟨h3, list2, new, e1, m2, s1, e2, m3, e3, m4, hsev, hrun, hwalk⟩
  · obtain ⟨l1, m1, hok, _⟩ := asciip_list_sort_ok m l cs error hwf (by omega)
    rw [hok] at hf
    cases hf
  · obtain ⟨list2', m2', s1', m3', c, hsev', hrun', _, _, _, hwalk'⟩ :=
      merge_sort_second_half_walk m l cs error hwf hodd h3
    rw [hsev] at hsev'
    simp only [Except.ok.injEq, Prod.mk.injEq] at hsev'
    obtain ⟨h1, h2, h3', h4⟩ := hsev'
    subst h1 h2 h3' h4
    rw [hrun] at hrun'
    simp only [Except.ok.injEq, Prod.mk.injEq] at hrun'
    obtain ⟨g1, g2, g3⟩ := hrun'
    subst g1 g2 g3
    rw [hwalk] at hwalk'
    simp at hwalk'

/-! ## The error tracker (C22) -/

/-- C22: for every error code (a `uint8_t`) and message, `report_error` with a supplied
tracker prints the diagnostic line and stores the code and, in the 50-character buffer,
the first `min(len, 50)` characters of the message followed by NUL padding; with an
absent tracker it only prints the diagnostic line. -/
theorem report_error_stores_code_and_message (e0 : Asciip_Error) (error_code : Nat)
    (error_message : String) (m : Mem) (hcode : error_code < 256) :
    (∃ e, report_error (some e0) error_code error_message m =
        (some e, { m with out := m.out ++ [diagnostic error_code error_message] }) ∧
      e.code = error_code ∧ e.message.length = MAX_ERROR_MESSAGE_LEN ∧
      e.message.take (min error_message.length MAX_ERROR_MESSAGE_LEN) =
        error_message.data.take (min error_message.length MAX_ERROR_MESSAGE_LEN) ∧
      e.message.drop (min error_message.length MAX_ERROR_MESSAGE_LEN) =
        List.replicate (MAX_ERROR_MESSAGE_LEN - error_message.length) (Char.ofNat 0)) ∧
      report_error none error_code error_message m =
        (none, { m with out := m.out ++ [diagnostic error_code error_message] }) := by
  have hmod : error_code % 256 = error_code := Nat.mod_eq_of_lt hcode
  have hlen : error_message.length = error_message.data.length := rfl
  refine ⟨⟨⟨error_code, strncpy error_message.data MAX_ERROR_MESSAGE_LEN⟩, ?_, rfl, ?_, ?_, ?_⟩,
    ?_⟩
  · simp only [report_error, hmod]
  · simp only [strncpy, List.length_append, List.length_take, List.length_replicate]
    omega
  · rw [hlen]
    simp only [strncpy]
    rw [List.take_append_of_le_length (by simp only [List.length_take]; omega)]
    rw [List.take_take]
    congr 1
    omega
  · rw [hlen]
    simp only [strncpy]
    have h1 : (error_message.data.take MAX_ERROR_MESSAGE_LEN).length =
        min error_message.data.length MAX_ERROR_MESSAGE_LEN := by
      simp only [List.length_take]
      omega
    exact List.drop_left' h1
  · simp only [report_error, hmod]

theorem report_error_stores_code_and_message_witness :
    (2 : Nat) < 256 ∧
      (∃ e, report_error (some ⟨0, []⟩) 2 "abc" exMem =
          (some e, { exMem with out := exMem.out ++ [diagnostic 2 "abc"] }) ∧
        e.code = 2 ∧ e.message.length = MAX_ERROR_MESSAGE_LEN ∧
        e.message.take (min "abc".length MAX_ERROR_MESSAGE_LEN) =
          "abc".data.take (min "abc".length MAX_ERROR_MESSAGE_LEN) ∧
        e.message.drop (min "abc".length MAX_ERROR_MESSAGE_LEN) =
          List.replicate (MAX_ERROR_MESSAGE_LEN - "abc".length) (Char.ofNat 0)) ∧
        report_error none 2 "abc" exMem =
          (none, { exMem with out := exMem.out ++ [diagnostic 2 "abc"] }) :=
  ⟨by decide, report_error_stores_code_and_message ⟨0, []⟩ 2 "abc" exMem (by decide)⟩

/-! ## Ties (C24) -/

/-- When the head nodes of two disjoint null-terminated chains carry points with the
same `x`, `asciip_merge_list` puts the head node of the second chain first. -/
theorem merge_list_tie_takes_second (fuel : Nat) (m : Mem) (a b : Ptr) (c1 c2 : Cell)
    (l1 l2 : List Cell) (ha : Chain m a (c1 :: l1)) (hb : Chain m b (c2 :: l2))
    (hdisj : ∀ x ∈ c1 :: l1, ∀ y ∈ c2 :: l2, x.node ≠ y.node)
    (hpoints : ∀ c ∈ (c1 :: l1) ++ (c2 :: l2), (m.point c.point).isSome = true)
    (htie : xOf m c1 = xOf m c2)
    (hfuel : (c1 :: l1).length + (c2 :: l2).length ≤ fuel + 1) :
    ∃ m1 cs, asciip_merge_list fuel m a b = .ok (.addr c2.node, m1) ∧
      Chain m1 (.addr c2.node) (c2 :: cs) ∧ cs.Perm ((c1 :: l1) ++ l2) ∧
      m1.points = m.points := by
  unfold Chain at ha hb
  have ha0 := ha
  have hb0 := hb
  rw [Seg_cons_iff] at ha0 hb0
  obtain ⟨hea, nx1, hn1, _⟩ := ha0
  obtain ⟨heb, nx2, hn2, hs2⟩ := hb0
  subst hea heb
  obtain ⟨p1, hp1⟩ := point_of_isSome (hpoints c1 (by simp))
  obtain ⟨p2, hp2⟩ := point_of_isSome (hpoints c2 (by simp))
  have hge : ¬ p1.x < p2.x := by
    rw [xOf_eq hp1, xOf_eq hp2] at htie
    rw [htie]
    exact Dbl_lt_irrefl _
  obtain ⟨k, hk⟩ : ∃ k, fuel = k + 1 := by
    simp only [List.length_cons] at hfuel
    exact ⟨fuel - 1, by omega⟩
  subst hk
  have hstep := merge_loop_step_ge k m m c1 c2 nx1 nx2 p1 p2 none .wild (.addr c2.node)
    hn1 hn2 hp1 hp2 hge (merge_store_none m .wild (.addr c2.node))
  have hnd1 := Seg.nodup ha
  have hnd2 := Seg.nodup hb
  rw [List.map_cons, List.nodup_cons] at hnd2
  obtain ⟨d1, m1, r, cs, hrun, hseg, hperm, _, _, hsome, hf⟩ :=
    merge_loop_spec k (c1 :: l1) l2 m (.addr c1.node) nx2 (some c2.node) (.addr c2.node) ha hs2
      (by
        rw [List.map_append, List.nodup_append]
        refine ⟨hnd1, hnd2.2, ?_⟩
        intro x hx1 hx2
        obtain ⟨y1, hy1, e1⟩ := List.mem_map.mp hx1
        obtain ⟨y2, hy2, e2⟩ := List.mem_map.mp hx2
        exact hdisj y1 hy1 y2 (List.mem_cons_of_mem _ hy2) (by rw [e1, e2]))
      (fun c hc => hpoints c (by
        simp only [List.mem_append, List.mem_cons] at hc ⊢
        rcases hc with h | h
        · exact Or.inl h
        · exact Or.inr (Or.inr h)))
      (fun t ht => by
        cases ht
        refine ⟨?_, by rw [hn2]; rfl⟩
        rw [List.map_append, List.mem_append]
        rintro (h | h)
        · obtain ⟨y1, hy1, e1⟩ := List.mem_map.mp h
          exact hdisj y1 hy1 c2 (by simp) e1
        · exact hnd2.1 h)
      (by simp only [List.length_cons] at hfuel ⊢; omega)
  obtain ⟨hd, tn0, tn, htn0, htn, hnext, hdata⟩ := hsome c2.node rfl
  rw [hn2] at htn0
  cases htn0
  subst hd
  refine ⟨m1, cs, ?_, ?_, hperm, hf.1⟩
  · unfold asciip_merge_list
    rw [hstep, hrun]
  · unfold Chain
    rw [Seg_cons_iff]
    refine ⟨rfl, r, ?_, hseg⟩
    rw [htn]
    cases tn
    simp_all

/-- On a well-formed two-element list whose two points have the same `x`,
`asciip_list_sort` returns `0` and the chain from the new `head` is the two nodes in
reverse order. -/
theorem sort_two_tie_reverses (m : Mem) (l : Asciip_List) (c1 c2 : Cell)
    (error : Option Asciip_Error) (hwf : WellFormed m l [c1, c2])
    (htie : xOf m c1 = xOf m c2) :
    ∃ m1, asciip_list_sort m (some l) error =
        .ok (0, some { l with head := .addr c2.node }, error, m1) ∧
      Chain m1 (.addr c2.node) [c2, c1] ∧ m1.points = m.points := by
  have hchain := hwf.chain
  unfold Chain at hchain
  have hsize : l.size = 2 := hwf.size_eq
  have hlen := Seg.length_le hchain
  have hnd := Seg.nodup hchain
  have hne : c1.node ≠ c2.node := by
    intro h
    simp [h] at hnd
  have h0 := hchain
  rw [Seg_cons_iff] at h0
  obtain ⟨hhead, nx, hn1, hrest⟩ := h0
  rw [Seg_cons_iff] at hrest
  obtain ⟨hnx, nx2, hn2, hnil⟩ := hrest
  rw [Seg_nil_iff] at hnil
  subst hnx hnil
  obtain ⟨k, hk⟩ : ∃ k, m.nodes.length = k + 2 := by
    simp only [List.length_cons, List.length_nil] at hlen
    exact ⟨m.nodes.length - 2, by omega⟩
  -- the split: the middle node is the head
  have hget : asciip_list_get_node m (.addr c1.node) (l.size / 2) error =
      .ok (.addr c1.node, error, m) := by
    rw [hsize]
    have hc : Seg m (.addr c1.node) ([] ++ c1 :: [c2]) .null := by
      rw [← hhead]
      exact hchain
    exact asciip_list_get_node_spec error hc rfl
  have hm2a : (m.setNode c1.node ⟨.addr c1.point, .null⟩).node c1.node =
      some ⟨.addr c1.point, .null⟩ := Mem.node_setNode_self m _ (Mem.node_lt hn1)
  have hm2b : (m.setNode c1.node ⟨.addr c1.point, .null⟩).node c2.node =
      some ⟨.addr c2.point, .null⟩ := by
    rw [Mem.node_setNode_of_ne m _ hne]
    exact hn2
  have hsort1 := asciip_merge_sort_single (k + 1) _ c1.node _ (l.size / 2) error hm2a
  have hsort2 := asciip_merge_sort_single (k + 1) _ c2.node _ (l.size / 2) error hm2b
  -- the merge of the two one-node chains
  obtain ⟨m1, cs, hmerge, hres, hperm, hpts⟩ :=
    merge_list_tie_takes_second (k + 2) (m.setNode c1.node ⟨.addr c1.point, .null⟩)
      (.addr c1.node) (.addr c2.node) c1 c2 [] []
      (by
        unfold Chain
        rw [Seg_cons_iff]
        exact ⟨rfl, .null, hm2a, rfl⟩)
      (by
        unfold Chain
        rw [Seg_cons_iff]
        exact ⟨rfl, .null, hm2b, rfl⟩)
      (by
        intro x hx y hy
        simp only [List.mem_singleton] at hx hy
        subst hx hy
        exact hne)
      (by
        intro c hc
        exact hwf.points c (by simpa using hc))
      htie (by simp)
  have hcs : cs = [c1] := by
    have := hperm
    simp only [List.append_nil] at this
    exact List.perm_singleton.mp this
  subst hcs
  refine ⟨m1, ?_, hres, hpts⟩
  have hrun := asciip_merge_sort_split (k + 2) m _ _ m1 c1.node c2.node c1.node
    (.addr c1.point) (.addr c1.point) (.addr c2.node) (.addr c1.node) (.addr c2.node)
    (.addr c2.node) l.size error hn1 hget hn1 hsort1 hsort2 hmerge
  simp only [asciip_list_sort, hhead, hk, hrun, isNull]

/-- C24: when the head nodes of the two chains carry the same `x`, `asciip_merge_list`
outputs the head node of the second chain first; and `asciip_list_sort` on a
well-formed two-element list whose points have the same `x` returns `0` with the two
nodes in reverse order (the sort is not stable). -/
theorem asciip_merge_list_tie_second_first :
    (∀ (fuel : Nat) (m : Mem) (a b : Ptr) (c1 c2 : Cell) (l1 l2 : List Cell),
      Chain m a (c1 :: l1) → Chain m b (c2 :: l2) →
      (∀ x ∈ c1 :: l1, ∀ y ∈ c2 :: l2, x.node ≠ y.node) →
      (∀ c ∈ (c1 :: l1) ++ (c2 :: l2), (m.point c.point).isSome = true) →
      xOf m c1 = xOf m c2 →
      (c1 :: l1).length + (c2 :: l2).length ≤ fuel + 1 →
      ∃ m1 cs, asciip_merge_list fuel m a b = .ok (.addr c2.node, m1) ∧
        Chain m1 (.addr c2.node) (c2 :: cs) ∧ cs.Perm ((c1 :: l1) ++ l2) ∧
        m1.points = m.points) ∧
      (∀ (m : Mem) (l : Asciip_List) (c1 c2 : Cell) (error : Option Asciip_Error),
        WellFormed m l [c1, c2] → xOf m c1 = xOf m c2 →
        ∃ m1, asciip_list_sort m (some l) error =
            .ok (0, some { l with head := .addr c2.node }, error, m1) ∧
          Chain m1 (.addr c2.node) [c2, c1] ∧ m1.points = m.points) :=
  ⟨merge_list_tie_takes_second, sort_two_tie_reverses⟩

theorem asciip_merge_list_tie_second_first_witness :
    (Chain exTieSplitMem (.addr 0) [⟨0, 0⟩] ∧ Chain exTieSplitMem (.addr 1) [⟨1, 1⟩] ∧
        xOf exTieSplitMem ⟨0, 0⟩ = xOf exTieSplitMem ⟨1, 1⟩ ∧
        ∃ m1 cs, asciip_merge_list 1 exTieSplitMem (.addr 0) (.addr 1) = .ok (.addr 1, m1) ∧
          Chain m1 (.addr 1) (⟨1, 1⟩ :: cs) ∧ cs.Perm ([⟨0, 0⟩] ++ []) ∧
          m1.points = exTieSplitMem.points) ∧
      (WellFormed exTieMem exTieList [⟨0, 0⟩, ⟨1, 1⟩] ∧
        xOf exTieMem ⟨0, 0⟩ = xOf exTieMem ⟨1, 1⟩ ∧
        ∃ m1, asciip_list_sort exTieMem (some exTieList) none =
            .ok (0, some { exTieList with head := .addr 1 }, none, m1) ∧
          Chain m1 (.addr 1) [⟨1, 1⟩, ⟨0, 0⟩] ∧ m1.points = exTieMem.points) :=
  ⟨⟨by decide, by decide, by decide,
      asciip_merge_list_tie_second_first.1 1 exTieSplitMem (.addr 0) (.addr 1) ⟨0, 0⟩ ⟨1, 1⟩ [] []
        (by decide) (by decide) (by decide) (by decide) (by decide) (by decide)⟩,
    ⟨by decide, by decide,
      asciip_merge_list_tie_second_first.2 exTieMem exTieList ⟨0, 0⟩ ⟨1, 1⟩ none (by decide)
        (by decide)⟩⟩

/-! ## The size counter (C25) -/

theorem rowMem_node (n i : Nat) (hi : i < n) :
    (rowMem n).node i = some ⟨.addr i, if i + 1 = n then .null else .addr (i + 1)⟩ := by
  unfold Mem.node rowMem
  simp only [List.getD_eq_getElem?_getD, List.getElem?_map, List.getElem?_range hi]
  rfl

theorem rowMem_point (n i : Nat) (hi : i < n) : ((rowMem n).point i).isSome = true := by
  unfold Mem.point rowMem
  simp only [List.getD_eq_getElem?_getD, List.getElem?_map, List.getElem?_range hi]
  rfl

theorem rowMem_nodes_length (n : Nat) : (rowMem n).nodes.length = n := by
  simp [rowMem]

theorem rowCells_length (n : Nat) : (rowCells n).length = n := by
  simp [rowCells]

theorem rowMem_seg (n : Nat) : ∀ (k i : Nat), i + k = n → 1 ≤ k →
    Seg (rowMem n) (.addr i) ((List.range' i k).map (fun j => (⟨j, j⟩ : Cell))) .null := by
  intro k
  induction k with
  | zero => intro i _ h; omega
  | succ k ih =>
    intro i hik _
    rw [List.range'_succ, List.map_cons, Seg_cons_iff]
    refine ⟨rfl, _, rowMem_node n i (by omega), ?_⟩
    cases k with
    | zero =>
      have : i + 1 = n := by omega
      simp [this, Seg]
    | succ k =>
      have : ¬ i + 1 = n := by omega
      simp only [this, if_false]
      exact ih (i + 1) (by omega) (by omega)

theorem rowMem_wellFormed (n : Nat) (h1 : 1 ≤ n) (h2 : n < 65536) :
    WellFormed (rowMem n) (rowList n) (rowCells n) := by
  refine ⟨rowMem_seg n n 0 (by omega) h1, (rowCells_length n).symm, ?_, ?_, ?_⟩
  · rw [rowCells_length]
    exact h2
  · obtain ⟨k, hk⟩ : ∃ k, n = k + 1 := ⟨n - 1, by omega⟩
    subst hk
    unfold rowCells rowList
    rw [List.range'_concat, List.map_append, List.map_singleton, lastPtr_concat]
    simp
  · intro c hc
    unfold rowCells at hc
    obtain ⟨j, hj, hcj⟩ := List.mem_map.mp hc
    rw [List.mem_range'] at hj
    obtain ⟨i, hi, hji⟩ := hj
    subst hcj
    exact rowMem_point n j (by omega)

/-- C25: `asciip_list_add` makes no capacity check: whenever it returns `0`, the `size`
of the list structure handed back is the old `size` plus one modulo `2 ^ 16` (so `0`
when the old `size` was `65535`), while one more node cell has been allocated. -/
theorem asciip_list_add_size_wraps (m : Mem) (l : Asciip_List) (point : Ptr)
    (error : Option Asciip_Error) (l1 : Option Asciip_List) (e1 : Option Asciip_Error)
    (m1 : Mem) (h : asciip_list_add m (some l) point error = .ok (0, l1, e1, m1)) :
    ∃ l2, l1 = some l2 ∧ l2.size = (l.size + 1) % 65536 ∧
      (l.size = 65535 → l2.size = 0) ∧ l2.head = l.head ∧
      m1.nodes.length = m.nodes.length + 1 := by
  simp only [asciip_list_add] at h
  split at h
  · cases h
  · simp at h
  · split at h
    · simp at h
    · rename_i nodep m2 hmalloc
      split at h
      · cases h
      · rename_i t tn hrd
        simp only [Except.ok.injEq, Prod.mk.injEq, true_and] at h
        obtain ⟨hl, _, hm⟩ := h
        have hlen : m2.nodes.length = m.nodes.length + 1 := by
          unfold malloc_node at hmalloc
          split at hmalloc
          · cases hmalloc
          · simp only [Option.some.injEq, Prod.mk.injEq] at hmalloc
            rw [← hmalloc.2]
            simp
        refine ⟨_, hl.symm, rfl, ?_, rfl, ?_⟩
        · intro h65
          show (l.size + 1) % 65536 = 0
          rw [h65]
        · rw [← hm]
          simp only [Mem.setNode, List.length_set]
          exact hlen

theorem asciip_list_add_size_wraps_witness :
    WellFormed (rowMem 65535) (rowList 65535) (rowCells 65535) ∧
      (rowList 65535).size = 65535 ∧ (rowCells 65535).length = 65535 ∧
      ∃ l2 m1, asciip_list_add (rowMem 65535) (some (rowList 65535)) (.addr 0) none =
          .ok (0, some l2, none, m1) ∧
        l2.size = 0 ∧ l2.head = (rowList 65535).head ∧
        Seg m1 l2.head (rowCells 65535 ++ [Cell.mk (rowMem 65535).nodes.length 0]) .wild ∧
        (rowCells 65535 ++ [Cell.mk (rowMem 65535).nodes.length 0]).length = 65536 ∧
        m1.nodes.length = 65536 := by
  have hwf := rowMem_wellFormed 65535 (by decide) (by decide)
  have hlen := rowCells_length 65535
  have hne : rowCells 65535 ≠ [] := by
    intro h
    rw [h] at hlen
    cases hlen
  obtain ⟨m1, hadd, _, _, hseg, _, _⟩ :=
    asciip_list_add_nonempty (rowMem 65535) (rowList 65535) (rowCells 65535) 0 none hwf hne
      (by decide)
  obtain ⟨l2, hl2, hsz, hwrap, hhead, hnodes⟩ :=
    asciip_list_add_size_wraps (rowMem 65535) (rowList 65535) (.addr 0) none _ none m1 hadd
  cases hl2
  refine ⟨hwf, rfl, hlen, _, m1, hadd, hwrap rfl, hhead, hseg, ?_, ?_⟩
  · rw [List.length_append, hlen]
    rfl
  · rw [hnodes, rowMem_nodes_length]

end AsciiPlot
